import Mathlib

/-!
Verification of the core of the `cimplex` combinatorial 3D mesh library:
the simplicial 3-complex stores (`ComboMesh3` / `MwbComboMesh3` in
`src/mesh3.rs`) and the Bowyer-Watson Delaunay tetrahedralization in
`src/tetrahedralize.rs`.

The embedding is a shallow one.  Vertex ids are natural numbers; the
hash-map stores are association lists; `f64` coordinates are embedded as
rationals (the robust predicates of the external `simplicity` crate
evaluate the sign of exact determinants over the given coordinates, so
over rational inputs the predicates are exactly the determinant-sign
tests; symbolic perturbation only matters at determinant zero, which no
claim below depends on).  The crate's `vertex.rs`, `edge.rs`, `tri.rs`,
`tet.rs` and `iter.rs` are not part of the given sources; the operations
they define are modelled from the specification and are pinned by the
unit tests present in `src/mesh3.rs` and `src/tetrahedralize.rs`
(several of those tests are replayed against this model below).
-/

set_option maxHeartbeats 1000000

abbrev VertexId := Nat

/-- Association-list lookup: the store maps canonical keys to payloads. -/
def alookup {K V : Type} [DecidableEq K] (k : K) : List (K × V) → Option V
  | [] => none
  | e :: l => if e.1 = k then some e.2 else alookup k l

/-- Remove every entry with the given key. -/
def aeraseAll {K V : Type} [DecidableEq K] (k : K) (l : List (K × V)) : List (K × V) :=
  l.filter (fun e => decide (e.1 ≠ k))

/-- Insert or replace: the map afterwards has exactly one entry for `k`. -/
def ainsert {K V : Type} [DecidableEq K] (k : K) (v : V) (l : List (K × V)) : List (K × V) :=
  (k, v) :: aeraseAll k l

/-! ## Geometry: coordinates and the robust predicates

The crate stores `f64` positions and calls the `simplicity` crate for
`orient_3d` / `in_sphere`, which evaluate the exact sign of the
corresponding determinants (with symbolic perturbation at sign zero).
Every finite `f64` value is a rational; coordinates are embedded as
exact integer fractions, on which all the arithmetic below is exact, so
the predicates compute exactly the determinant signs the robust
predicates compute. -/

/-- An exact fraction `num / den` (with `den ≠ 0`; the constructors used
in this development always produce a positive `den`).  This represents
one finite `f64` coordinate exactly. -/
structure Frac where
  num : Int
  den : Int
deriving DecidableEq, Repr

def Frac.ofInt (n : Int) : Frac :=
  ⟨n, 1⟩

def Frac.add (a b : Frac) : Frac :=
  ⟨a.num * b.den + b.num * a.den, a.den * b.den⟩

def Frac.sub (a b : Frac) : Frac :=
  ⟨a.num * b.den - b.num * a.den, a.den * b.den⟩

def Frac.mul (a b : Frac) : Frac :=
  ⟨a.num * b.num, a.den * b.den⟩

/-- Positivity of the represented rational: the sign of `num / den` is
the sign of `num * den` for any nonzero `den`. -/
def Frac.pos (a : Frac) : Bool :=
  decide (0 < a.num * a.den)

/-- Comparison of represented rationals. -/
def Frac.ltb (a b : Frac) : Bool :=
  (b.sub a).pos

structure Vec3 where
  x : Frac
  y : Frac
  z : Frac
deriving DecidableEq, Repr

def vsub (a b : Vec3) : Vec3 :=
  ⟨a.x.sub b.x, a.y.sub b.y, a.z.sub b.z⟩

def det3 (r1 r2 r3 : Vec3) : Frac :=
  ((r1.x.mul ((r2.y.mul r3.z).sub (r2.z.mul r3.y))).sub
    (r1.y.mul ((r2.x.mul r3.z).sub (r2.z.mul r3.x)))).add
    (r1.z.mul ((r2.x.mul r3.y).sub (r2.y.mul r3.x)))

/-- Orientation test of `simplicity::orient_3d`: true iff the determinant
of the 4x4 homogeneous matrix of the four points is positive, which
equals `det3 (a-d) (b-d) (c-d) > 0`. -/
def orient3d (a b c d : Vec3) : Bool :=
  (det3 (vsub a d) (vsub b d) (vsub c d)).pos

def normSq (a : Vec3) : Frac :=
  ((a.x.mul a.x).add (a.y.mul a.y)).add (a.z.mul a.z)

/-- The in-sphere determinant: the 4x4 determinant with rows
`(v - e, |v - e|^2)` for `v` in `a b c d`, expanded along the last
column. -/
def insphereDet (a b c d e : Vec3) : Frac :=
  let ra := vsub a e
  let rb := vsub b e
  let rc := vsub c e
  let rd := vsub d e
  (((normSq rb).mul (det3 ra rc rd)).add ((normSq rd).mul (det3 ra rb rc))).sub
    ((((normSq ra).mul (det3 rb rc rd))).add ((normSq rc).mul (det3 ra rb rd)))

/-- In-sphere test of `simplicity::in_sphere`: for a positively oriented
tetrahedron `a b c d`, true iff `e` is strictly inside its
circumsphere. -/
def inSphere (a b c d e : Vec3) : Bool :=
  (insphereDet a b c d e).pos

/-- Squared distance over possibly-infinite positions (`none` stands for
the ghost vertex's `f64::INFINITY` coordinates; any distance involving
it is infinite, i.e. `none`). -/
def distSqOpt : Option Vec3 → Option Vec3 → Option Frac
  | some a, some b => some (normSq (vsub a b))
  | _, _ => none

/-- The `<` comparison on possibly-infinite squared distances, as it
behaves on `f64`: infinity is never less than anything, and any finite
value is less than infinity. -/
def optLt : Option Frac → Option Frac → Bool
  | some a, some b => a.ltb b
  | some _, none => true
  | none, _ => false

/-! ## Simplex ids and canonical rotations -/

abbrev Edge := Nat × Nat

abbrev Tri := Nat × Nat × Nat

abbrev Tet := Nat × Nat × Nat × Nat

/-- Canonical rotation of a triangle id: the rotation of the cyclic
order that starts at the smallest vertex id. -/
def triCanon : Tri → Tri
  | (a, b, c) =>
    if a ≤ b ∧ a ≤ c then (a, b, c) else if b ≤ c then (b, c, a) else (c, a, b)

/-- The twin of an oriented triangle: same vertices, opposite
orientation, in canonical rotation. -/
def triTwin : Tri → Tri
  | (a, b, c) => triCanon (a, c, b)

def triVerts : Tri → List VertexId
  | (a, b, c) => [a, b, c]

/-- The three directed edges of an oriented triangle. -/
def triEdges : Tri → List Edge
  | (a, b, c) => [(a, b), (b, c), (c, a)]

def tetVerts : Tet → List VertexId
  | (a, b, c, d) => [a, b, c, d]

/-- The twelve even rearrangements of a tetrahedron id (the orbit of the
alternating group A4 acting on the four slots): these are exactly the
tuples denoting the same oriented tetrahedron. -/
def tetRots : Tet → List Tet
  | (a, b, c, d) =>
    [(a, b, c, d), (b, a, d, c), (c, d, a, b), (d, c, b, a),
     (a, c, d, b), (a, d, b, c), (c, b, d, a), (d, b, a, c),
     (b, d, c, a), (d, a, c, b), (b, c, a, d), (c, a, b, d)]

def tetMinV : Tet → VertexId
  | (a, b, c, d) => min a (min b (min c d))

/-- Canonical rotation of a tetrahedron id: among the even
rearrangements that start with the smallest vertex id, the one whose
second slot is smallest.  (For distinct vertices this is the unique
parity-preserving representative pinned by the unit tests of
`src/mesh3.rs`.) -/
def tetCanon (t : Tet) : Tet :=
  match (tetRots t).filter (fun p => decide (p.1 = tetMinV t)) with
  | [] => t
  | x :: xs => xs.foldl (fun acc p => if p.2.1 < acc.2.1 then p else acc) x

/-- The four oriented faces of a tetrahedron (`TetId::tris`), in
canonical rotation: each face `(u,v,w)` paired with its opposite vertex
is an even rearrangement of the tetrahedron. -/
def tetTris : Tet → List Tri
  | (a, b, c, d) => [triCanon (a, b, c), triCanon (d, c, b), triCanon (c, d, a), triCanon (b, a, d)]

/-- The faces of a tetrahedron paired with their opposite vertices. -/
def tetTrisOpps : Tet → List (Tri × VertexId)
  | (a, b, c, d) =>
    [(triCanon (a, b, c), d), (triCanon (d, c, b), a), (triCanon (c, d, a), b), (triCanon (b, a, d), c)]

/-- The face of a tetrahedron opposite a given vertex (`TetId::opp_tri`),
oriented so that the face followed by the vertex is an even rearrangement
of the tetrahedron. -/
def oppTri : Tet → VertexId → Tri
  | (a, b, c, d), v =>
    if v = a then triCanon (d, c, b)
    else if v = b then triCanon (c, d, a)
    else if v = c then triCanon (b, a, d)
    else triCanon (a, b, c)

/-- Face sharing between two tetrahedra (same oriented triangle). -/
def sharesFace (t1 t2 : Tet) : Bool :=
  (tetTris t1).any (fun f => f ∈ tetTris t2)

/-! ## The mesh record

Both `ComboMesh3` and `MwbComboMesh3` in `src/mesh3.rs` hold the same
stores (ordered vertex map, hash maps for edges, triangles and
tetrahedra keyed on canonical ids, a fresh-id counter and the four
default-payload producers); they differ only in the behaviour of the
tetrahedron store (the MWB flag).  The ring links and opposite-vertex
hints are cache structures for constant-time traversal; the queries they
accelerate are modelled here by direct scans of the stores, which is
observationally equivalent. -/

structure Mesh (V E F T : Type) where
  verts : List (VertexId × V)
  edges : List (Edge × E)
  tris : List (Tri × F)
  tets : List (Tet × T)
  nextVertexId : VertexId
  defaultV : V
  defaultE : E
  defaultF : F
  defaultT : T
deriving DecidableEq

def vertexIds {V E F T : Type} (m : Mesh V E F T) : List VertexId :=
  m.verts.map Prod.fst

def edgeKeys {V E F T : Type} (m : Mesh V E F T) : List Edge :=
  m.edges.map Prod.fst

def triKeys {V E F T : Type} (m : Mesh V E F T) : List Tri :=
  m.tris.map Prod.fst

def tetKeys {V E F T : Type} (m : Mesh V E F T) : List Tet :=
  m.tets.map Prod.fst

/-- Triangles around a directed edge (`edge_tris`). -/
def edgeTris {V E F T : Type} (m : Mesh V E F T) (e : Edge) : List Tri :=
  (triKeys m).filter (fun t => decide (e ∈ triEdges t))

/-- Opposite vertices of the triangles around a directed edge
(`edge_vertex_opps`). -/
def edgeVertexOpps {V E F T : Type} (m : Mesh V E F T) (e : Edge) : List VertexId :=
  (triKeys m).filterMap (fun t =>
    if (t.1, t.2.1) = e then some t.2.2
    else if (t.2.1, t.2.2) = e then some t.1
    else if (t.2.2, t.1) = e then some t.2.1
    else none)

/-- Tetrahedra around an oriented triangle (`tri_tets`). -/
def triTets {V E F T : Type} (m : Mesh V E F T) (f : Tri) : List Tet :=
  (tetKeys m).filter (fun q => decide (f ∈ tetTris q))

/-- Opposite vertex of the tetrahedron on an oriented triangle
(`tri_vertex_opp`); in an MWB tetrahedron store there is at most one. -/
def triVertexOpp {V E F T : Type} (m : Mesh V E F T) (f : Tri) : Option VertexId :=
  ((tetKeys m).filterMap (fun q => alookup f (tetTrisOpps q))).head?

/-- Targets of the outgoing edges of a vertex (`vertex_targets`). -/
def vertexTargets {V E F T : Type} (m : Mesh V E F T) (v : VertexId) : List VertexId :=
  (edgeKeys m).filterMap (fun e => if e.1 = v then some e.2 else none)

def vertexEdgesOut {V E F T : Type} (m : Mesh V E F T) (v : VertexId) : List Edge :=
  (edgeKeys m).filter (fun e => decide (e.1 = v))

def vertexEdgesIn {V E F T : Type} (m : Mesh V E F T) (v : VertexId) : List Edge :=
  (edgeKeys m).filter (fun e => decide (e.2 = v))

/-- Tetrahedra containing a vertex (`vertex_tets`). -/
def vertexTets {V E F T : Type} (m : Mesh V E F T) (v : VertexId) : List Tet :=
  (tetKeys m).filter (fun q => decide (v ∈ tetVerts q))

/-- Tetrahedra adjacent to a tetrahedron across a shared face
(`adjacent_tets`): those containing the twin of one of its faces. -/
def adjacentTets {V E F T : Type} (m : Mesh V E F T) (q : Tet) : List Tet :=
  (tetKeys m).filter (fun q2 => (tetTris q).any (fun f => decide (triTwin f ∈ tetTris q2)))

/-! ## Mutators shared by both variants -/

/-- Add a vertex with a payload, handing out the next dense id
(`add_vertex`; ids are never recycled). -/
def addVertex {V E F T : Type} (m : Mesh V E F T) (v : V) : Mesh V E F T × VertexId :=
  ({ m with verts := m.verts ++ [(m.nextVertexId, v)], nextVertexId := m.nextVertexId + 1 },
   m.nextVertexId)

/-- Bulk vertex insertion returning the new ids (`extend_vertices`). -/
def extendVertices {V E F T : Type} (m : Mesh V E F T) (l : List V) :
    Mesh V E F T × List VertexId :=
  l.foldl (fun acc v =>
    let r := addVertex acc.1 v
    (r.1, acc.2 ++ [r.2])) (m, [])

/-- Create a directed edge with the default payload if absent (the
closure-under-subsimplex step of `add_tri`). -/
def ensureEdge {V E F T : Type} (m : Mesh V E F T) (e : Edge) : Mesh V E F T :=
  if (alookup e m.edges).isSome then m
  else { m with edges := (e, m.defaultE) :: m.edges }

/-- Insert or replace a directed edge (`add_edge`), returning the previous
payload. -/
def addEdge {V E F T : Type} (m : Mesh V E F T) (e : Edge) (val : E) :
    Mesh V E F T × Option E :=
  ({ m with edges := ainsert e val m.edges }, alookup e m.edges)

/-- Create a triangle with the default payload if absent, ensuring its
three directed edges first (the closure step of `add_tet`). -/
def ensureTri {V E F T : Type} (m : Mesh V E F T) (f0 : Tri) : Mesh V E F T :=
  let f := triCanon f0
  if (alookup f m.tris).isSome then m
  else
    let m1 := ensureEdge (ensureEdge (ensureEdge m (f.1, f.2.1)) (f.2.1, f.2.2)) (f.2.2, f.1)
    { m1 with tris := (f, m.defaultF) :: m1.tris }

/-- Insert or replace a triangle (`add_tri` in the non-MWB triangle
store used by both 3-complex variants), ensuring its directed edges. -/
def addTri {V E F T : Type} (m : Mesh V E F T) (f0 : Tri) (val : F) :
    Mesh V E F T × Option F :=
  let f := triCanon f0
  match alookup f m.tris with
  | some old => ({ m with tris := ainsert f val m.tris }, some old)
  | none =>
    let m1 := ensureEdge (ensureEdge (ensureEdge m (f.1, f.2.1)) (f.2.1, f.2.2)) (f.2.2, f.1)
    ({ m1 with tris := (f, val) :: m1.tris }, none)

/-- Drop a directed edge if no triangle uses it any more (the dangling
sub-simplex cleanup a full triangle removal performs on its own three
edges; pinned by `test_remove_tri` and `test_remove_edge_m` in
`src/mesh3.rs`). -/
def edgeDropIfUnused {V E F T : Type} (acc : Mesh V E F T) (d : Edge) : Mesh V E F T :=
  if (edgeTris acc d).isEmpty then { acc with edges := aeraseAll d acc.edges } else acc

/-- Remove a triangle that no longer sits in any tetrahedron: erase it
and drop its own directed edges that are left without a triangle.
Modelled from the spec: this is the body of the missing `tri.rs`
`remove_tri` in the case where the upward cascade finds nothing. -/
def triDrop {V E F T : Type} (m : Mesh V E F T) (f : Tri) : Mesh V E F T :=
  if (alookup f m.tris).isSome then
    (triEdges f).foldl edgeDropIfUnused { m with tris := aeraseAll f m.tris }
  else m

def triDropIfUnused {V E F T : Type} (acc : Mesh V E F T) (f : Tri) : Mesh V E F T :=
  if (triTets acc f).isEmpty then triDrop acc f else acc

/-- Remove a tetrahedron (`remove_tet`; `remove_tet_higher` is empty for
both 3-complex variants): erase it, then remove each of its faces that
is left in no tetrahedron (pinned by `test_remove_tet` going from 23 to
20 triangles keeping the shared face, and `test_remove_tet_m` going from
20 to 16).  Modelled from the spec and those tests: `tet.rs` is not in
the given sources. -/
def removeTet {V E F T : Type} (m : Mesh V E F T) (q : Tet) : Mesh V E F T × Option T :=
  match alookup q m.tets with
  | none => (m, none)
  | some v =>
    ((tetTris q).foldl triDropIfUnused { m with tets := aeraseAll q m.tets }, some v)

/-- Erase a tetrahedron without touching its faces
(`remove_tet_keep_tris`). -/
def removeTetKeepTris {V E F T : Type} (m : Mesh V E F T) (q : Tet) : Mesh V E F T :=
  { m with tets := aeraseAll q m.tets }

/-! ## The plain 3-complex variant (`ComboMesh3`) -/

namespace ComboMesh3

/-- Remove a triangle without its dangling-edge cleanup
(`remove_tri_keep_edges`): the upward cascade `remove_tri_higher`
removes the tetrahedra around it through `remove_tets_keep_tris`, then
the triangle itself is erased. -/
def removeTriKeepEdges {V E F T : Type} (m : Mesh V E F T) (f : Tri) : Mesh V E F T :=
  if (alookup f m.tris).isSome then
    let m1 := (triTets m f).foldl removeTetKeepTris m
    { m1 with tris := aeraseAll f m1.tris }
  else m

/-- Remove a triangle (`remove_tri`): the cascade removes every
tetrahedron around it (`remove_tri_higher` via
`remove_tets_keep_tris`), the triangle is erased and its own directed
edges that are left without a triangle are dropped. -/
def removeTri {V E F T : Type} (m : Mesh V E F T) (f : Tri) : Mesh V E F T × Option F :=
  match alookup f m.tris with
  | none => (m, none)
  | some v =>
    let m1 := (triTets m f).foldl removeTetKeepTris m
    let m2 := { m1 with tris := aeraseAll f m1.tris }
    ((triEdges f).foldl edgeDropIfUnused m2, some v)

/-- Remove a directed edge (`remove_edge`): the cascade
(`remove_edge_higher` of the plain variant) removes every triangle
around it through `remove_tris_keep_edges`, then the edge is erased. -/
def removeEdge {V E F T : Type} (m : Mesh V E F T) (e : Edge) : Mesh V E F T × Option E :=
  match alookup e m.edges with
  | none => (m, none)
  | some v =>
    let m1 := (edgeTris m e).foldl removeTriKeepEdges m
    ({ m1 with edges := aeraseAll e m1.edges }, some v)

/-- Remove a vertex (`remove_vertex`): the cascade removes every edge
incident to it, outgoing or incoming (`remove_vertex_higher`), then the
vertex is erased. -/
def removeVertex {V E F T : Type} (m : Mesh V E F T) (v : VertexId) : Mesh V E F T × Option V :=
  match alookup v m.verts with
  | none => (m, none)
  | some val =>
    let inc := vertexEdgesOut m v ++ vertexEdgesIn m v
    let m1 := inc.foldl (fun acc e => (removeEdge acc e).1) m
    ({ m1 with verts := aeraseAll v m1.verts }, some val)

/-- Insert or replace a tetrahedron (`add_tet` on the plain variant):
replacing an existing canonical key only swaps the payload; a fresh key
ensures its four faces (closure, creating triangles and edges with the
default payloads) and inserts. -/
def addTet {V E F T : Type} (m : Mesh V E F T) (q0 : Tet) (val : T) :
    Mesh V E F T × Option T :=
  let q := tetCanon q0
  match alookup q m.tets with
  | some old => ({ m with tets := ainsert q val m.tets }, some old)
  | none =>
    let m1 := (tetTris q).foldl ensureTri m
    ({ m1 with tets := (q, val) :: m1.tets }, none)

/-- Bulk tetrahedron insertion (`extend_tets`). -/
def extendTets {V E F T : Type} (m : Mesh V E F T) (l : List (Tet × T)) : Mesh V E F T :=
  l.foldl (fun acc e => (addTet acc e.1 e.2).1) m

end ComboMesh3

/-! ## The manifold-with-boundary variant (`MwbComboMesh3`) -/

namespace MwbComboMesh3

/-- Remove a triangle, with the MWB cascade of
`MwbComboMesh3::remove_tri_higher`: the unique tetrahedron on the
triangle (if any) is erased through `remove_tet_keep_tris`, the
tetrahedron's three other faces are removed (each a full `remove_tri`
whose own upward cascade then finds nothing, so it erases the face and
drops its dangling edges), the triangle itself is erased, and, unless
`keepEdges` is set (`remove_tri_keep_edges`), its dangling edges are
dropped. -/
def removeTriFull {V E F T : Type} (m : Mesh V E F T) (f : Tri) (keepEdges : Bool) :
    Mesh V E F T :=
  if (alookup f m.tris).isSome then
    let m1 :=
      match triVertexOpp m f with
      | none => m
      | some opp =>
        let ma := removeTetKeepTris m (tetCanon (f.1, f.2.1, f.2.2, opp))
        let mb := triDrop ma (triCanon (opp, f.2.2, f.2.1))
        let mc := triDrop mb (triCanon (f.2.2, opp, f.1))
        triDrop mc (triCanon (f.2.1, f.1, opp))
    let m2 := { m1 with tris := aeraseAll f m1.tris }
    if keepEdges then m2 else (triEdges f).foldl edgeDropIfUnused m2
  else m

/-- Remove a triangle (`remove_tri` on the MWB variant), returning the
previous payload. -/
def removeTri {V E F T : Type} (m : Mesh V E F T) (f : Tri) : Mesh V E F T × Option F :=
  (removeTriFull m f false, alookup f m.tris)

/-- Remove a directed edge (`remove_edge` with
`MwbComboMesh3::remove_edge_higher`): every triangle around the edge is
removed (the first through `remove_tri_keep_edges`, the rest fully),
then the two edges `(b, opp)` and `(opp, a)` of the first triangle are
dropped if no triangle is left around them, then the edge is erased. -/
def removeEdge {V E F T : Type} (m : Mesh V E F T) (e : Edge) : Mesh V E F T × Option E :=
  match alookup e m.edges with
  | none => (m, none)
  | some v =>
    let m1 :=
      match edgeVertexOpps m e with
      | [] => m
      | o0 :: rest =>
        let ma := rest.foldl (fun acc w => removeTriFull acc (triCanon (e.1, e.2, w)) false) m
        let mb := removeTriFull ma (triCanon (e.1, e.2, o0)) true
        let mc :=
          if (edgeVertexOpps mb (e.2, o0)).isEmpty
          then { mb with edges := aeraseAll (e.2, o0) mb.edges } else mb
        if (edgeVertexOpps mc (o0, e.1)).isEmpty
        then { mc with edges := aeraseAll (o0, e.1) mc.edges } else mc
    ({ m1 with edges := aeraseAll e m1.edges }, some v)

/-- Remove a vertex (`remove_vertex`): same cascade shape as the plain
variant, through the MWB `remove_edge`. -/
def removeVertex {V E F T : Type} (m : Mesh V E F T) (v : VertexId) : Mesh V E F T × Option V :=
  match alookup v m.verts with
  | none => (m, none)
  | some val =>
    let inc := vertexEdgesOut m v ++ vertexEdgesIn m v
    let m1 := inc.foldl (fun acc e => (removeEdge acc e).1) m
    ({ m1 with verts := aeraseAll v m1.verts }, some val)

/-- Insert or replace a tetrahedron (`add_tet` on the MWB variant):
replacing an existing canonical key only swaps the payload; a fresh key
first removes every existing tetrahedron that contains one of the new
tetrahedron's oriented faces (the MWB replacement cascade), then ensures
the four faces and inserts.  Modelled from the spec: `tet.rs` is not in
the given sources; the kill behaviour is pinned by `test_extend_tets_m`
and `test_remove_add_tet_m`. -/
def addTet {V E F T : Type} (m : Mesh V E F T) (q0 : Tet) (val : T) :
    Mesh V E F T × Option T :=
  let q := tetCanon q0
  match alookup q m.tets with
  | some old => ({ m with tets := ainsert q val m.tets }, some old)
  | none =>
    let kills := (tetKeys m).filter (fun k2 => sharesFace q k2)
    let m0 := kills.foldl (fun acc k2 => (removeTet acc k2).1) m
    let m1 := (tetTris q).foldl ensureTri m0
    ({ m1 with tets := (q, val) :: m1.tets }, none)

/-- Bulk tetrahedron insertion (`extend_tets`). -/
def extendTets {V E F T : Type} (m : Mesh V E F T) (l : List (Tet × T)) : Mesh V E F T :=
  l.foldl (fun acc e => (addTet acc e.1 e.2).1) m

end MwbComboMesh3

/-! ## The Delaunay tetrahedralizer (`src/tetrahedralize.rs`)

The algorithm operates on an MWB tetrahedron mesh whose vertex payloads
are positions; `none` is the at-infinity position of the ghost vertex
(`Point1::new(f64::INFINITY).xxx()`). -/

abbrev PosMesh (E F T : Type) := Mesh (Option Vec3) E F T

def posOpt {E F T : Type} (m : PosMesh E F T) (i : VertexId) : Option Vec3 :=
  (alookup i m.verts).bind id

/-- The coordinate accessor `index_fn`; only ever applied to vertices
with finite positions by the algorithm. -/
def posOf {E F T : Type} (m : PosMesh E F T) (i : VertexId) : Vec3 :=
  (posOpt m i).getD ⟨Frac.ofInt 0, Frac.ofInt 0, Frac.ofInt 0⟩

/-- Squared distance between two mesh vertices (`distance_squared`);
infinite (`none`) when the ghost is involved. -/
def distanceSquared {E F T : Type} (m : PosMesh E F T) (a b : VertexId) : Option Frac :=
  distSqOpt (posOpt m a) (posOpt m b)

/-- Embedded `in_sphere_with_ghosts`: the modified in-sphere test.  If
the tetrahedron contains the ghost, the `orient_3d` test of the triangle
opposite the ghost against `v`; otherwise the plain `in_sphere` test of
the four vertices against `v`. -/
def inSphereWithGhosts {E F T : Type} (m : PosMesh E F T) (t : Tet) (v ghost : VertexId) :
    Bool :=
  if ghost ∈ tetVerts t then
    let tri := oppTri t ghost
    orient3d (posOf m tri.1) (posOf m tri.2.1) (posOf m tri.2.2) (posOf m v)
  else
    inSphere (posOf m t.1) (posOf m t.2.1) (posOf m t.2.2.1) (posOf m t.2.2.2) (posOf m v)

/-- One step of the greedy walk: the vertex target strictly closer to
`p` that minimizes the squared distance (`min_by_key` keeps the first
minimum). -/
def closerTarget {E F T : Type} (m : PosMesh E F T) (v p : VertexId) : Option VertexId :=
  let cands := (vertexTargets m v).filter
    (fun t => optLt (distanceSquared m t p) (distanceSquared m v p))
  match cands with
  | [] => none
  | c :: cs => some (cs.foldl (fun best t =>
      if optLt (distanceSquared m t p) (distanceSquared m best p) then t else best) c)

/-- The greedy walk to the locally closest vertex.  The fuel bounds the
number of steps; each step strictly decreases the distance so the number
of vertices suffices. -/
def walkToClosest {E F T : Type} (m : PosMesh E F T) (p : VertexId) :
    Nat → VertexId → VertexId
  | 0, v => v
  | fuel + 1, v =>
    match closerTarget m v p with
    | none => v
    | some c => walkToClosest m p fuel c

/-- Breadth-first search over tetrahedron adjacency (`iter::bfs`,
modelled from the spec: `iter.rs` is not in the given sources): nodes
passing the predicate are yielded and expanded, others are only marked
visited.  The fuel bounds the number of queue pops. -/
def bfs {E F T : Type} (m : PosMesh E F T) (pred : Tet → Bool) :
    Nat → List Tet → List Tet → List Tet
  | 0, _, _ => []
  | _ + 1, [], _ => []
  | fuel + 1, q :: rest, visited =>
    if q ∈ visited then bfs m pred fuel rest visited
    else if pred q then q :: bfs m pred fuel (rest ++ adjacentTets m q) (q :: visited)
    else bfs m pred fuel rest (q :: visited)

/-- Fuel that dominates any breadth-first traversal of the mesh: every
pop either discards a queued node or yields a new tetrahedron, and each
yield enqueues at most `num_tets` nodes. -/
def bfsFuel {E F T : Type} (m : PosMesh E F T) : Nat :=
  (m.tets.length + 1) * (m.tets.length + 1) + m.tets.length + 1

/-- Embedded `find_tet_to_delete`: walk to the closest vertex, then
breadth-first over all tetrahedra from its star until one whose
ghost-aware circumsphere contains the new vertex is found.  The source
unwraps; the model returns `none` where the source would panic. -/
def findTetToDelete {E F T : Type} (m : PosMesh E F T) (p ghost : VertexId) : Option Tet :=
  match m.tets.head? with
  | none => none
  | some e0 =>
    let v := walkToClosest m p (m.verts.length + 1) e0.1.1
    (bfs m (fun _ => true) (bfsFuel m) (vertexTets m v) []).find?
      (fun t => inSphereWithGhosts m t p ghost)

/-- Embedded `tets_to_delete`: the cavity, a breadth-first traversal
from the seed over adjacency keeping the tetrahedra whose ghost-aware
circumsphere contains `p`. -/
def tetsToDelete {E F T : Type} (m : PosMesh E F T) (p ghost : VertexId) : List Tet :=
  match findTetToDelete m p ghost with
  | none => []
  | some s => bfs m (fun t => inSphereWithGhosts m t p ghost) (bfsFuel m) [s] []

/-- The faces of the cavity tetrahedra (the `tris` hash set of the
insertion loop). -/
def cavityTris {E F T : Type} (m : PosMesh E F T) (p ghost : VertexId) : List Tri :=
  ((tetsToDelete m p ghost).map tetTris).flatten.dedup

/-- The boundary of the cavity: its faces whose twin orientation is not
itself a cavity face. -/
def boundaryTris {E F T : Type} (m : PosMesh E F T) (p ghost : VertexId) : List Tri :=
  (cavityTris m p ghost).filter (fun f => decide (triTwin f ∉ cavityTris m p ghost))

/-- One insertion step of the Bowyer-Watson loop (lines 114-137 of
`src/tetrahedralize.rs`): compute the cavity, remove it, and add one new
tetrahedron `(a, b, c, p)` with the default payload per boundary face
`(a, b, c)`. -/
def insertStep {E F T : Type} (m : PosMesh E F T) (p ghost : VertexId) : PosMesh E F T :=
  let cav := tetsToDelete m p ghost
  let bnd := boundaryTris m p ghost
  let m1 := cav.foldl (fun acc t => (removeTet acc t).1) m
  MwbComboMesh3.extendTets m1 (bnd.map (fun f => ((f.1, f.2.1, f.2.2, p), m1.defaultT)))

/-- The initial phase of `delaunay_tets` (lines 93-112): allocate the
ghost vertex, pop four vertices off the end of the collected id list,
swap the last two if the four are not positively oriented, add that
solid tetrahedron and one ghost tetrahedron `(u, w, v, ghost)` per face
`(u, v, w)` of it.  Returns the mesh, the ids still to insert (in pop
order) and the ghost id. -/
def delaunayInit {E F T : Type} (m : PosMesh E F T) :
    PosMesh E F T × List VertexId × VertexId :=
  let r := (vertexIds m).reverse
  let ghost := m.nextVertexId
  let m0 := (addVertex m none).1
  let v0 := r.getD 0 0
  let v1 := r.getD 1 0
  let v2 := r.getD 2 0
  let v3 := r.getD 3 0
  let first :=
    if orient3d (posOf m0 v0) (posOf m0 v1) (posOf m0 v2) (posOf m0 v3)
    then (v0, v1, v2, v3) else (v0, v1, v3, v2)
  let m1 := (MwbComboMesh3.addTet m0 first m0.defaultT).1
  let m2 := (tetTris (tetCanon first)).foldl
    (fun acc f => (MwbComboMesh3.addTet acc (f.1, f.2.2, f.2.1, ghost) acc.defaultT).1) m1
  (m2, r.drop 4, ghost)

/-- The solid tetrahedron built by the initial phase, canonicalized. -/
def delaunayFirstTet {E F T : Type} (m : PosMesh E F T) : Tet :=
  let r := (vertexIds m).reverse
  let m0 := (addVertex m none).1
  let v0 := r.getD 0 0
  let v1 := r.getD 1 0
  let v2 := r.getD 2 0
  let v3 := r.getD 3 0
  if orient3d (posOf m0 v0) (posOf m0 v1) (posOf m0 v2) (posOf m0 v3)
  then tetCanon (v0, v1, v2, v3) else tetCanon (v0, v1, v3, v2)

/-- Embedded `delaunay_tets`: with fewer than four vertices the mesh is
returned unchanged; otherwise the initial tetrahedron plus ghosts are
built, every remaining vertex is inserted by a Bowyer-Watson step, and
the ghost vertex is removed (cascading away the ghost tetrahedra). -/
def delaunayTets {E F T : Type} (m : PosMesh E F T) : PosMesh E F T :=
  if m.verts.length < 4 then m
  else
    let r := delaunayInit m
    let m3 := r.2.1.foldl (fun acc p => insertStep acc p r.2.2) r.1
    (MwbComboMesh3.removeVertex m3 r.2.2).1

/-! ## Invariant: no two tetrahedra share an oriented face -/

def noSharedFaces {V E F T : Type} (m : Mesh V E F T) : Prop :=
  ∀ k1 ∈ tetKeys m, ∀ k2 ∈ tetKeys m, k1 ≠ k2 → sharesFace k1 k2 = false

instance {V E F T : Type} (m : Mesh V E F T) : Decidable (noSharedFaces m) :=
  inferInstanceAs (Decidable (∀ k1 ∈ tetKeys m, ∀ k2 ∈ tetKeys m, k1 ≠ k2 →
    sharesFace k1 k2 = false))

/-! ## Fixtures (used by the claim witnesses and the model-validation
theorems; the vertex/tetrahedron data replays the unit tests of
`src/mesh3.rs` and `src/tetrahedralize.rs`) -/

def emptyMeshN : Mesh Nat Nat Nat Nat := ⟨[], [], [], [], 0, 0, 0, 0, 0⟩

def fixtureMesh9 : Mesh Nat Nat Nat Nat := (extendVertices emptyMeshN [3, 6, 9, 2, 5, 8, 1, 4, 7]).1

def fixtureTets5 : List (Tet × Nat) :=
  [((1,2,3,0), 2), ((0,2,3,4), 3), ((2,3,4,5), 4), ((6,5,4,3), 5), ((6,7,4,5), 6)]

def fixtureTets6 : List (Tet × Nat) := ((0,1,2,3), 1) :: fixtureTets5

def fixtureMwb5 : Mesh Nat Nat Nat Nat := MwbComboMesh3.extendTets fixtureMesh9 fixtureTets5

def fracI (n : Int) : Frac := ⟨n, 1⟩

def emptyPosMesh : PosMesh Nat Nat Nat := ⟨[], [], [], [], 0, none, 0, 0, 0⟩

def pt0 : Vec3 := ⟨fracI 0, fracI 0, fracI 0⟩

def pt1 : Vec3 := ⟨fracI 1, fracI 0, fracI 0⟩

def pt2 : Vec3 := ⟨fracI 0, fracI 1, fracI 0⟩

def pt3 : Vec3 := ⟨fracI 0, fracI 0, fracI 1⟩

def pt4 : Vec3 := ⟨⟨1, 2⟩, ⟨3, 10⟩, ⟨3, 5⟩⟩

/-- The five-point fixture of `test_in_sphere_ghost`. -/
def fixtureIS : PosMesh Nat Nat Nat :=
  (MwbComboMesh3.addTet (extendVertices emptyPosMesh ([pt0, pt1, pt2, pt3, pt4].map some)).1
    (0, 1, 3, 2) 0).1

/-- The four-point input of `test_delaunay_tets_single`. -/
def fixtureD4 : PosMesh Nat Nat Nat :=
  (extendVertices emptyPosMesh ([pt0, pt1, pt2, pt3].map some)).1

/-- The three-point input of `test_delaunay_tets_empty`. -/
def fixtureD3 : PosMesh Nat Nat Nat :=
  (extendVertices emptyPosMesh ([pt0, pt1, pt2].map some)).1

/-- The six-point input of `test_delaunay_tets_multiple`. -/
def fixtureD6 : PosMesh Nat Nat Nat :=
  (extendVertices emptyPosMesh
    ([pt0, pt1, pt2, pt3, ⟨⟨3, 2⟩, ⟨3, 2⟩, fracI 1⟩, ⟨⟨1, 2⟩, ⟨1, 2⟩, ⟨1, 2⟩⟩].map some)).1

/-- A five-point general-position input (the four unit points and an
interior point), with the interior point first in insertion order. -/
def fixtureD5 : PosMesh Nat Nat Nat :=
  (extendVertices emptyPosMesh
    ([⟨⟨1, 4⟩, ⟨1, 4⟩, ⟨1, 4⟩⟩, pt0, pt1, pt2, pt3].map some)).1

def fixtureMesh4 : Mesh Nat Nat Nat Nat := (extendVertices emptyMeshN [3, 6, 9, 2]).1

def fixturePlain5 : Mesh Nat Nat Nat Nat := ComboMesh3.extendTets fixtureMesh9 fixtureTets5

/-! ## The initial phase of `delaunay_tets` -/

/-- The four popped vertices arranged positively (the `first` tuple of
lines 98-105 of `src/tetrahedralize.rs`), before canonicalization. -/
def delaunayInitFirst {E F T : Type} (m : PosMesh E F T) : Tet :=
  let r := (vertexIds m).reverse
  let m0 := (addVertex m none).1
  let v0 := r.getD 0 0
  let v1 := r.getD 1 0
  let v2 := r.getD 2 0
  let v3 := r.getD 3 0
  if orient3d (posOf m0 v0) (posOf m0 v1) (posOf m0 v2) (posOf m0 v3)
  then (v0, v1, v2, v3) else (v0, v1, v3, v2)

theorem alookup_eq_none_iff {K V : Type} [DecidableEq K] (k : K) (l : List (K × V)) :
    alookup k l = none ↔ k ∉ l.map Prod.fst := by
  induction l with
  | nil => simp [alookup]
  | cons e l ih =>
    by_cases h : e.1 = k
    · simp [alookup, h]
    · simp [alookup, h, ih, Ne.symm h]

theorem alookup_isSome_iff {K V : Type} [DecidableEq K] (k : K) (l : List (K × V)) :
    (alookup k l).isSome = true ↔ k ∈ l.map Prod.fst := by
  simp [Option.isSome_iff_ne_none, Ne, alookup_eq_none_iff]

theorem mem_map_fst_aeraseAll {K V : Type} [DecidableEq K] (k k' : K) (l : List (K × V)) :
    k' ∈ (aeraseAll k l).map Prod.fst ↔ k' ∈ l.map Prod.fst ∧ k' ≠ k := by
  constructor
  · intro h
    rw [List.mem_map] at h
    obtain ⟨e, he, rfl⟩ := h
    rw [aeraseAll, List.mem_filter] at he
    exact ⟨List.mem_map_of_mem _ he.1, by simpa using he.2⟩
  · rintro ⟨h1, h2⟩
    rw [List.mem_map] at h1
    obtain ⟨e, he, rfl⟩ := h1
    rw [List.mem_map]
    exact ⟨e, List.mem_filter.mpr ⟨he, by simpa using h2⟩, rfl⟩

theorem aeraseAll_of_not_mem {K V : Type} [DecidableEq K] (k : K) (l : List (K × V))
    (h : k ∉ l.map Prod.fst) : aeraseAll k l = l := by
  rw [aeraseAll, List.filter_eq_self]
  intro e he
  have : e.1 ≠ k := fun hek => h (hek ▸ List.mem_map_of_mem _ he)
  simpa using this

theorem alookup_aeraseAll_self {K V : Type} [DecidableEq K] (k : K) (l : List (K × V)) :
    alookup k (aeraseAll k l) = none := by
  rw [alookup_eq_none_iff, mem_map_fst_aeraseAll]
  simp

theorem alookup_aeraseAll_ne {K V : Type} [DecidableEq K] (k k' : K) (l : List (K × V))
    (h : k' ≠ k) : alookup k' (aeraseAll k l) = alookup k' l := by
  induction l with
  | nil => rfl
  | cons e l ih =>
    by_cases he : e.1 = k
    · rw [aeraseAll, List.filter_cons_of_neg (by simpa using he)]
      rw [aeraseAll] at ih
      rw [ih, alookup, if_neg (by rw [he]; exact fun hk => h hk.symm)]
    · rw [aeraseAll, List.filter_cons_of_pos (by simpa using he)]
      rw [alookup, alookup]
      rw [aeraseAll] at ih
      by_cases hk : e.1 = k'
      · rw [if_pos hk, if_pos hk]
      · rw [if_neg hk, if_neg hk, ih]

theorem alookup_ainsert_self {K V : Type} [DecidableEq K] (k : K) (v : V) (l : List (K × V)) :
    alookup k (ainsert k v l) = some v := by
  rw [ainsert, alookup, if_pos rfl]

theorem alookup_ainsert_ne {K V : Type} [DecidableEq K] (k k' : K) (v : V) (l : List (K × V))
    (h : k' ≠ k) : alookup k' (ainsert k v l) = alookup k' l := by
  rw [ainsert, alookup, if_neg (fun hk => h hk.symm), alookup_aeraseAll_ne _ _ _ h]

theorem mem_map_fst_ainsert {K V : Type} [DecidableEq K] (k k' : K) (v : V) (l : List (K × V)) :
    k' ∈ (ainsert k v l).map Prod.fst ↔ k' = k ∨ (k' ∈ l.map Prod.fst ∧ k' ≠ k) := by
  rw [ainsert, List.map_cons, List.mem_cons, mem_map_fst_aeraseAll]

theorem countP_ainsert {K V : Type} [DecidableEq K] (k : K) (v : V) (l : List (K × V)) :
    (ainsert k v l).countP (fun e => decide (e.1 = k)) = 1 := by
  rw [ainsert, List.countP_cons_of_pos _ _ (by simp)]
  have : (aeraseAll k l).countP (fun e => decide (e.1 = k)) = 0 := by
    rw [List.countP_eq_zero]
    intro e he
    rw [aeraseAll, List.mem_filter] at he
    simpa using he.2
  omega

/-- Folding key-erasure over a list of keys is filtering all of them out. -/
theorem foldl_aeraseAll {K V : Type} [DecidableEq K] (ks : List K) (l : List (K × V)) :
    ks.foldl (fun acc k => aeraseAll k acc) l =
      l.filter (fun e => decide (e.1 ∉ ks)) := by
  induction ks generalizing l with
  | nil => simp [List.filter_eq_self]
  | cons k ks ih =>
    rw [List.foldl_cons, ih, aeraseAll, List.filter_filter]
    congr 1
    funext e
    by_cases h1 : e.1 = k <;> by_cases h2 : e.1 ∈ ks <;> simp [h1, h2]

/-! ## Projection lemmas -/

theorem edgeDropIfUnused_tets {V E F T : Type} (m : Mesh V E F T) (d : Edge) :
    (edgeDropIfUnused m d).tets = m.tets := by
  unfold edgeDropIfUnused
  split <;> rfl

theorem edgeDropIfUnused_tris {V E F T : Type} (m : Mesh V E F T) (d : Edge) :
    (edgeDropIfUnused m d).tris = m.tris := by
  unfold edgeDropIfUnused
  split <;> rfl

theorem edgeDropIfUnused_verts {V E F T : Type} (m : Mesh V E F T) (d : Edge) :
    (edgeDropIfUnused m d).verts = m.verts := by
  unfold edgeDropIfUnused
  split <;> rfl

theorem foldl_edgeDropIfUnused_tets {V E F T : Type} (ds : List Edge) (m : Mesh V E F T) :
    (ds.foldl edgeDropIfUnused m).tets = m.tets := by
  induction ds generalizing m with
  | nil => rfl
  | cons d ds ih => rw [List.foldl_cons, ih, edgeDropIfUnused_tets]

theorem foldl_edgeDropIfUnused_tris {V E F T : Type} (ds : List Edge) (m : Mesh V E F T) :
    (ds.foldl edgeDropIfUnused m).tris = m.tris := by
  induction ds generalizing m with
  | nil => rfl
  | cons d ds ih => rw [List.foldl_cons, ih, edgeDropIfUnused_tris]

theorem foldl_edgeDropIfUnused_verts {V E F T : Type} (ds : List Edge) (m : Mesh V E F T) :
    (ds.foldl edgeDropIfUnused m).verts = m.verts := by
  induction ds generalizing m with
  | nil => rfl
  | cons d ds ih => rw [List.foldl_cons, ih, edgeDropIfUnused_verts]

theorem triDrop_tets {V E F T : Type} (m : Mesh V E F T) (f : Tri) :
    (triDrop m f).tets = m.tets := by
  unfold triDrop
  split
  · rw [foldl_edgeDropIfUnused_tets]
  · rfl

theorem triDrop_verts {V E F T : Type} (m : Mesh V E F T) (f : Tri) :
    (triDrop m f).verts = m.verts := by
  unfold triDrop
  split
  · rw [foldl_edgeDropIfUnused_verts]
  · rfl

theorem triDropIfUnused_tets {V E F T : Type} (m : Mesh V E F T) (f : Tri) :
    (triDropIfUnused m f).tets = m.tets := by
  unfold triDropIfUnused
  split
  · rw [triDrop_tets]
  · rfl

theorem triDropIfUnused_verts {V E F T : Type} (m : Mesh V E F T) (f : Tri) :
    (triDropIfUnused m f).verts = m.verts := by
  unfold triDropIfUnused
  split
  · rw [triDrop_verts]
  · rfl

theorem foldl_triDropIfUnused_tets {V E F T : Type} (fs : List Tri) (m : Mesh V E F T) :
    (fs.foldl triDropIfUnused m).tets = m.tets := by
  induction fs generalizing m with
  | nil => rfl
  | cons f fs ih => rw [List.foldl_cons, ih, triDropIfUnused_tets]

theorem foldl_triDropIfUnused_verts {V E F T : Type} (fs : List Tri) (m : Mesh V E F T) :
    (fs.foldl triDropIfUnused m).verts = m.verts := by
  induction fs generalizing m with
  | nil => rfl
  | cons f fs ih => rw [List.foldl_cons, ih, triDropIfUnused_verts]

/-- The tetrahedron store after `remove_tet` is exactly the store without
that key, in both branches. -/
theorem removeTet_tets {V E F T : Type} (m : Mesh V E F T) (q : Tet) :
    ((removeTet m q).1).tets = aeraseAll q m.tets := by
  unfold removeTet
  cases h : alookup q m.tets with
  | none =>
    rw [aeraseAll_of_not_mem _ _ ((alookup_eq_none_iff _ _).mp h)]
  | some v =>
    rw [foldl_triDropIfUnused_tets]

theorem removeTet_verts {V E F T : Type} (m : Mesh V E F T) (q : Tet) :
    ((removeTet m q).1).verts = m.verts := by
  unfold removeTet
  cases h : alookup q m.tets with
  | none => rfl
  | some v => rw [foldl_triDropIfUnused_verts]

theorem edgeDropIfUnused_defaultT {V E F T : Type} (m : Mesh V E F T) (d : Edge) :
    (edgeDropIfUnused m d).defaultT = m.defaultT := by
  unfold edgeDropIfUnused
  split <;> rfl

theorem foldl_edgeDropIfUnused_defaultT {V E F T : Type} (ds : List Edge) (m : Mesh V E F T) :
    (ds.foldl edgeDropIfUnused m).defaultT = m.defaultT := by
  induction ds generalizing m with
  | nil => rfl
  | cons d ds ih => rw [List.foldl_cons, ih, edgeDropIfUnused_defaultT]

theorem triDrop_defaultT {V E F T : Type} (m : Mesh V E F T) (f : Tri) :
    (triDrop m f).defaultT = m.defaultT := by
  unfold triDrop
  split
  · rw [foldl_edgeDropIfUnused_defaultT]
  · rfl

theorem triDropIfUnused_defaultT {V E F T : Type} (m : Mesh V E F T) (f : Tri) :
    (triDropIfUnused m f).defaultT = m.defaultT := by
  unfold triDropIfUnused
  split
  · rw [triDrop_defaultT]
  · rfl

theorem foldl_triDropIfUnused_defaultT {V E F T : Type} (fs : List Tri) (m : Mesh V E F T) :
    (fs.foldl triDropIfUnused m).defaultT = m.defaultT := by
  induction fs generalizing m with
  | nil => rfl
  | cons f fs ih => rw [List.foldl_cons, ih, triDropIfUnused_defaultT]

theorem removeTet_defaultT {V E F T : Type} (m : Mesh V E F T) (q : Tet) :
    ((removeTet m q).1).defaultT = m.defaultT := by
  unfold removeTet
  cases h : alookup q m.tets with
  | none => rfl
  | some v => rw [foldl_triDropIfUnused_defaultT]

theorem foldl_removeTet_tets {V E F T : Type} (qs : List Tet) (m : Mesh V E F T) :
    ((qs.foldl (fun acc t => (removeTet acc t).1) m)).tets =
      m.tets.filter (fun e => decide (e.1 ∉ qs)) := by
  have h : ∀ (qs : List Tet) (m : Mesh V E F T),
      ((qs.foldl (fun acc t => (removeTet acc t).1) m)).tets =
        qs.foldl (fun l t => aeraseAll t l) m.tets := by
    intro qs
    induction qs with
    | nil => intro m; rfl
    | cons q qs ih =>
      intro m
      rw [List.foldl_cons, List.foldl_cons, ih, removeTet_tets]
  rw [h, foldl_aeraseAll]
  apply List.filter_congr
  intro e he
  rw [decide_eq_decide]

theorem foldl_removeTet_defaultT {V E F T : Type} (qs : List Tet) (m : Mesh V E F T) :
    ((qs.foldl (fun acc t => (removeTet acc t).1) m)).defaultT = m.defaultT := by
  induction qs generalizing m with
  | nil => rfl
  | cons q qs ih => rw [List.foldl_cons, ih, removeTet_defaultT]

theorem ensureEdge_tets {V E F T : Type} (m : Mesh V E F T) (e : Edge) :
    (ensureEdge m e).tets = m.tets := by
  unfold ensureEdge
  split <;> rfl

theorem ensureEdge_defaultT {V E F T : Type} (m : Mesh V E F T) (e : Edge) :
    (ensureEdge m e).defaultT = m.defaultT := by
  unfold ensureEdge
  split <;> rfl

theorem ensureTri_tets {V E F T : Type} (m : Mesh V E F T) (f : Tri) :
    (ensureTri m f).tets = m.tets := by
  simp only [ensureTri]
  split
  · rfl
  · simp only [ensureEdge_tets]

theorem ensureTri_defaultT {V E F T : Type} (m : Mesh V E F T) (f : Tri) :
    (ensureTri m f).defaultT = m.defaultT := by
  simp only [ensureTri]
  split
  · rfl
  · simp only [ensureEdge_defaultT]

theorem foldl_ensureTri_tets {V E F T : Type} (fs : List Tri) (m : Mesh V E F T) :
    (fs.foldl ensureTri m).tets = m.tets := by
  induction fs generalizing m with
  | nil => rfl
  | cons f fs ih => rw [List.foldl_cons, ih, ensureTri_tets]

theorem foldl_ensureTri_defaultT {V E F T : Type} (fs : List Tri) (m : Mesh V E F T) :
    (fs.foldl ensureTri m).defaultT = m.defaultT := by
  induction fs generalizing m with
  | nil => rfl
  | cons f fs ih => rw [List.foldl_cons, ih, ensureTri_defaultT]

/-- Face sharing is symmetric. -/
theorem sharesFace_symm (t1 t2 : Tet) : sharesFace t1 t2 = sharesFace t2 t1 := by
  unfold sharesFace
  by_cases h : ∃ f ∈ tetTris t1, f ∈ tetTris t2
  · obtain ⟨f, h1, h2⟩ := h
    rw [List.any_eq_true.mpr ⟨f, h1, by simpa using h2⟩,
        List.any_eq_true.mpr ⟨f, h2, by simpa using h1⟩]
  · push_neg at h
    rw [List.any_eq_false.mpr, List.any_eq_false.mpr]
    · intro f hf
      simpa using fun hc => h f hc hf
    · intro f hf
      simpa using h f hf

/-- The MWB `add_tet` on a fresh canonical key: the resulting tetrahedron
store is the new entry in front of the survivors, the tetrahedra that do
not share an oriented face with it; the returned previous payload is
`none`. -/
theorem MwbAddTet_new {V E F T : Type} (m : Mesh V E F T) (q0 : Tet) (v : T)
    (h : alookup (tetCanon q0) m.tets = none) :
    (MwbComboMesh3.addTet m q0 v).1.tets =
      (tetCanon q0, v) :: m.tets.filter (fun e => !(sharesFace (tetCanon q0) e.1)) ∧
    (MwbComboMesh3.addTet m q0 v).2 = none := by
  simp only [MwbComboMesh3.addTet]
  rw [h]
  simp only [foldl_ensureTri_tets, foldl_removeTet_tets]
  refine ⟨?_, by trivial⟩
  congr 1
  apply List.filter_congr
  intro e he
  have hmem : e.1 ∈ tetKeys m := List.mem_map_of_mem _ he
  by_cases hs : sharesFace (tetCanon q0) e.1 = true
  · simp only [List.mem_filter, hs, Bool.not_true, decide_eq_false_iff_not, not_not,
      and_true, decide_eq_true_eq]
    exact hmem
  · simp only [List.mem_filter, hs, Bool.not_false, decide_eq_true_eq]
    intro hc
    simp at hc

/-- The MWB `add_tet` on a key already present replaces the payload and
returns the previous one; no other tetrahedron is touched. -/
theorem MwbAddTet_present {V E F T : Type} (m : Mesh V E F T) (q0 : Tet) (v old : T)
    (h : alookup (tetCanon q0) m.tets = some old) :
    (MwbComboMesh3.addTet m q0 v).1.tets = ainsert (tetCanon q0) v m.tets ∧
    (MwbComboMesh3.addTet m q0 v).2 = some old := by
  simp only [MwbComboMesh3.addTet]
  rw [h]
  exact ⟨rfl, rfl⟩

theorem mem_map_fst_filter {K V : Type} (p : K × V → Bool) (l : List (K × V)) (k : K) :
    k ∈ (l.filter p).map Prod.fst ↔ ∃ x, (k, x) ∈ l ∧ p (k, x) = true := by
  constructor
  · intro h
    rw [List.mem_map] at h
    obtain ⟨e, he, rfl⟩ := h
    rw [List.mem_filter] at he
    exact ⟨e.2, he.1, he.2⟩
  · rintro ⟨x, hmem, hp⟩
    rw [List.mem_map]
    exact ⟨(k, x), List.mem_filter.mpr ⟨hmem, hp⟩, rfl⟩

/-- Key membership after the MWB `add_tet`: either the new canonical key,
or a previous key that does not share an oriented face with it, or (in
the payload-replacement case) any previous key. -/
theorem mem_tetKeys_MwbAddTet {V E F T : Type} (m : Mesh V E F T) (q0 : Tet) (v : T) (k : Tet)
    (hk : k ∈ tetKeys (MwbComboMesh3.addTet m q0 v).1) :
    k = tetCanon q0 ∨
      ((alookup (tetCanon q0) m.tets).isSome = false ∧ k ∈ tetKeys m ∧
        sharesFace (tetCanon q0) k = false) ∨
      ((alookup (tetCanon q0) m.tets).isSome = true ∧ k ∈ tetKeys m) := by
  cases h : alookup (tetCanon q0) m.tets with
  | some old =>
    rw [tetKeys, (MwbAddTet_present m q0 v old h).1] at hk
    rcases (mem_map_fst_ainsert _ _ _ _).mp hk with h1 | h2
    · exact Or.inl h1
    · exact Or.inr (Or.inr ⟨rfl, h2.1⟩)
  | none =>
    rw [tetKeys, (MwbAddTet_new m q0 v h).1, List.map_cons] at hk
    rcases List.mem_cons.mp hk with h1 | h2
    · exact Or.inl h1
    · obtain ⟨x, hmem, hp⟩ := (mem_map_fst_filter _ _ _).mp h2
      refine Or.inr (Or.inl ⟨rfl, List.mem_map_of_mem _ hmem, ?_⟩)
      simpa using hp

theorem noSharedFaces_MwbAddTet {V E F T : Type} (m : Mesh V E F T) (q0 : Tet) (v : T)
    (hP : noSharedFaces m) : noSharedFaces (MwbComboMesh3.addTet m q0 v).1 := by
  intro k1 h1 k2 h2 hne
  rcases mem_tetKeys_MwbAddTet m q0 v k1 h1 with e1 | ⟨_, m1, s1⟩ | ⟨p1, m1⟩ <;>
    rcases mem_tetKeys_MwbAddTet m q0 v k2 h2 with e2 | ⟨h0, m2, s2⟩ | ⟨p2, m2⟩
  · exact absurd (e1.trans e2.symm) hne
  · rw [e1]
    exact s2
  · rw [e1] at hne ⊢
    have hkey : tetCanon q0 ∈ tetKeys m := (alookup_isSome_iff _ _).mp p2
    exact hP _ hkey _ m2 hne
  · rw [e2, sharesFace_symm]
    exact s1
  · exact hP _ m1 _ m2 hne
  · exact hP _ m1 _ m2 hne
  · rw [e2] at hne ⊢
    have hkey : tetCanon q0 ∈ tetKeys m := (alookup_isSome_iff _ _).mp p1
    exact hP _ m1 _ hkey hne
  · exact hP _ m1 _ m2 hne
  · exact hP _ m1 _ m2 hne

theorem noSharedFaces_extendTets {V E F T : Type} (l : List (Tet × T)) (m : Mesh V E F T)
    (hP : noSharedFaces m) : noSharedFaces (MwbComboMesh3.extendTets m l) := by
  induction l generalizing m with
  | nil => exact hP
  | cons e l ih =>
    rw [MwbComboMesh3.extendTets, List.foldl_cons]
    exact ih _ (noSharedFaces_MwbAddTet _ _ _ hP)

/-! ## Claim theorems -/

/-- C2: in an MWB tet mesh, if no two tetrahedra share an oriented face,
then after `extend_tets` still no two tetrahedra share an oriented face;
and `add_tet` of a fresh key removes every pre-existing tetrahedron that
shares an oriented face with it before inserting. -/
theorem mwb_face_exclusive {V E F T : Type} (m : Mesh V E F T) (l : List (Tet × T))
    (hP : noSharedFaces m) :
    noSharedFaces (MwbComboMesh3.extendTets m l) ∧
    (∀ (q0 : Tet) (v : T) (t : Tet), t ∈ tetKeys m → t ≠ tetCanon q0 →
      sharesFace (tetCanon q0) t = true → t ∉ tetKeys (MwbComboMesh3.addTet m q0 v).1) := by
  refine ⟨noSharedFaces_extendTets l m hP, ?_⟩
  intro q0 v t ht hne hs hmem
  rcases mem_tetKeys_MwbAddTet m q0 v t hmem with e1 | ⟨_, _, s1⟩ | ⟨p1, _⟩
  · exact hne e1
  · rw [hs] at s1
    cases s1
  · have hkey : tetCanon q0 ∈ tetKeys m := (alookup_isSome_iff _ _).mp p1
    have := hP _ hkey _ ht (fun he => hne he.symm)
    rw [this] at hs
    cases hs

/-- C2 witness: the `test_extend_tets_m` scenario, instantiated. -/
theorem mwb_face_exclusive_witness :
    noSharedFaces fixtureMesh9 ∧
    (noSharedFaces (MwbComboMesh3.extendTets fixtureMesh9 fixtureTets6) ∧
      (∀ (q0 : Tet) (v : Nat) (t : Tet), t ∈ tetKeys fixtureMesh9 → t ≠ tetCanon q0 →
        sharesFace (tetCanon q0) t = true →
          t ∉ tetKeys (MwbComboMesh3.addTet fixtureMesh9 q0 v).1)) :=
  ⟨by decide, mwb_face_exclusive fixtureMesh9 fixtureTets6 (by decide)⟩

/-- C5: the ghost-aware in-sphere test: for a query vertex other than the
ghost, a tetrahedron containing the ghost is tested by `orient_3d` of
its face opposite the ghost against the query, and one not containing
the ghost by the plain `in_sphere` of its four vertices. -/
theorem in_sphere_with_ghosts_spec {E F T : Type} (m : PosMesh E F T) (t : Tet)
    (v ghost : VertexId) (_hv : v ≠ ghost) :
    (ghost ∈ tetVerts t →
      inSphereWithGhosts m t v ghost =
        orient3d (posOf m (oppTri t ghost).1) (posOf m (oppTri t ghost).2.1)
          (posOf m (oppTri t ghost).2.2) (posOf m v)) ∧
    (ghost ∉ tetVerts t →
      inSphereWithGhosts m t v ghost =
        inSphere (posOf m t.1) (posOf m t.2.1) (posOf m t.2.2.1) (posOf m t.2.2.2)
          (posOf m v)) := by
  constructor
  · intro h
    rw [inSphereWithGhosts, if_pos h]
  · intro h
    rw [inSphereWithGhosts, if_neg h]

/-- C5 witness: the `test_in_sphere_ghost` fixture with ghost `1` and
query vertex `4`. -/
theorem in_sphere_with_ghosts_witness :
    (4 : VertexId) ≠ 1 ∧
    (((1 : VertexId) ∈ tetVerts (0, 1, 3, 2) →
      inSphereWithGhosts fixtureIS (0, 1, 3, 2) 4 1 =
        orient3d (posOf fixtureIS (oppTri (0, 1, 3, 2) 1).1)
          (posOf fixtureIS (oppTri (0, 1, 3, 2) 1).2.1)
          (posOf fixtureIS (oppTri (0, 1, 3, 2) 1).2.2) (posOf fixtureIS 4)) ∧
    ((1 : VertexId) ∉ tetVerts (0, 1, 3, 2) →
      inSphereWithGhosts fixtureIS (0, 1, 3, 2) 4 1 =
        inSphere (posOf fixtureIS 0) (posOf fixtureIS 1) (posOf fixtureIS 3)
          (posOf fixtureIS 2) (posOf fixtureIS 4))) :=
  ⟨by decide, in_sphere_with_ghosts_spec fixtureIS (0, 1, 3, 2) 4 1 (by decide)⟩

/-- C7: `add_tet` is an idempotent replace.  On a canonical key that is
not in the mesh, the first insertion returns `none`; re-inserting
returns the first payload, and afterwards the store holds exactly one
entry with that key, carrying the second payload. -/
theorem add_tet_replace {V E F T : Type} (m : Mesh V E F T) (q : Tet) (x y : T)
    (hc : tetCanon q = q) (hnew : alookup q m.tets = none) :
    (MwbComboMesh3.addTet m q x).2 = none ∧
    (MwbComboMesh3.addTet (MwbComboMesh3.addTet m q x).1 q y).2 = some x ∧
    alookup q (MwbComboMesh3.addTet (MwbComboMesh3.addTet m q x).1 q y).1.tets = some y ∧
    ((MwbComboMesh3.addTet (MwbComboMesh3.addTet m q x).1 q y).1.tets.countP
      (fun e => decide (e.1 = q))) = 1 := by
  have h1 := MwbAddTet_new m q x (by rw [hc]; exact hnew)
  have hl : alookup (tetCanon q) (MwbComboMesh3.addTet m q x).1.tets = some x := by
    rw [h1.1, hc, alookup, if_pos rfl]
  have h2 := MwbAddTet_present (MwbComboMesh3.addTet m q x).1 q y x hl
  refine ⟨h1.2, h2.2, ?_, ?_⟩
  · rw [h2.1, hc, alookup_ainsert_self]
  · rw [h2.1, hc, countP_ainsert]

/-- C7 witness: a fresh canonical key added twice on the
`test_extend_tets_m` mesh. -/
theorem add_tet_replace_witness :
    (tetCanon (0, 1, 6, 7) = (0, 1, 6, 7) ∧
      alookup ((0, 1, 6, 7) : Tet) fixtureMwb5.tets = none) ∧
    ((MwbComboMesh3.addTet fixtureMwb5 (0, 1, 6, 7) 7).2 = none ∧
     (MwbComboMesh3.addTet (MwbComboMesh3.addTet fixtureMwb5 (0, 1, 6, 7) 7).1 (0, 1, 6, 7) 9).2 =
        some 7 ∧
     alookup ((0, 1, 6, 7) : Tet)
        (MwbComboMesh3.addTet (MwbComboMesh3.addTet fixtureMwb5 (0, 1, 6, 7) 7).1
          (0, 1, 6, 7) 9).1.tets = some 9 ∧
     ((MwbComboMesh3.addTet (MwbComboMesh3.addTet fixtureMwb5 (0, 1, 6, 7) 7).1
          (0, 1, 6, 7) 9).1.tets.countP (fun e => decide (e.1 = ((0, 1, 6, 7) : Tet)))) = 1) :=
  ⟨⟨by decide, by decide⟩,
    add_tet_replace fixtureMwb5 (0, 1, 6, 7) 7 9 (by decide) (by decide)⟩

/-- C9: with fewer than four vertices, `delaunay_tets` returns the input
mesh unchanged; in particular a vertex-only input keeps zero tetrahedra
and its vertex ids. -/
theorem delaunay_tets_small {E F T : Type} (m : PosMesh E F T)
    (h4 : m.verts.length < 4) (hT : m.tets = []) :
    delaunayTets m = m ∧ (delaunayTets m).tets = [] ∧
      vertexIds (delaunayTets m) = vertexIds m := by
  have he : delaunayTets m = m := by
    rw [delaunayTets, if_pos h4]
  exact ⟨he, by rw [he, hT], by rw [he]⟩

/-- C9 witness: the three-vertex input of `test_delaunay_tets_empty`. -/
theorem delaunay_tets_small_witness :
    (fixtureD3.verts.length < 4 ∧ fixtureD3.tets = []) ∧
    (delaunayTets fixtureD3 = fixtureD3 ∧ (delaunayTets fixtureD3).tets = [] ∧
      vertexIds (delaunayTets fixtureD3) = vertexIds fixtureD3) :=
  ⟨⟨by decide, by decide⟩, delaunay_tets_small fixtureD3 (by decide) (by decide)⟩

/-- C10: removing a simplex key that is not present returns `none` and
leaves the mesh unchanged, for every removal operation of both mesh
variants. -/
theorem remove_missing_noop {V E F T : Type} :
    (∀ (m : Mesh V E F T) (v : VertexId), alookup v m.verts = none →
      ComboMesh3.removeVertex m v = (m, none)) ∧
    (∀ (m : Mesh V E F T) (v : VertexId), alookup v m.verts = none →
      MwbComboMesh3.removeVertex m v = (m, none)) ∧
    (∀ (m : Mesh V E F T) (e : Edge), alookup e m.edges = none →
      ComboMesh3.removeEdge m e = (m, none)) ∧
    (∀ (m : Mesh V E F T) (e : Edge), alookup e m.edges = none →
      MwbComboMesh3.removeEdge m e = (m, none)) ∧
    (∀ (m : Mesh V E F T) (f : Tri), alookup f m.tris = none →
      ComboMesh3.removeTri m f = (m, none)) ∧
    (∀ (m : Mesh V E F T) (f : Tri), alookup f m.tris = none →
      MwbComboMesh3.removeTri m f = (m, none)) ∧
    (∀ (m : Mesh V E F T) (q : Tet), alookup q m.tets = none →
      removeTet m q = (m, none)) := by
  refine ⟨?_, ?_, ?_, ?_, ?_, ?_, ?_⟩
  · intro m v h
    rw [ComboMesh3.removeVertex, h]
  · intro m v h
    rw [MwbComboMesh3.removeVertex, h]
  · intro m e h
    rw [ComboMesh3.removeEdge, h]
  · intro m e h
    rw [MwbComboMesh3.removeEdge, h]
  · intro m f h
    rw [ComboMesh3.removeTri, h]
  · intro m f h
    rw [MwbComboMesh3.removeTri, h, MwbComboMesh3.removeTriFull, h]
    simp
  · intro m q h
    rw [removeTet, h]

/-- C10 witness: absent keys on the `test_extend_tets_m` mesh. -/
theorem remove_missing_noop_witness :
    (alookup (9 : VertexId) fixtureMwb5.verts = none ∧
      ComboMesh3.removeVertex fixtureMwb5 9 = (fixtureMwb5, none) ∧
      MwbComboMesh3.removeVertex fixtureMwb5 9 = (fixtureMwb5, none)) ∧
    (alookup ((0, 8) : Edge) fixtureMwb5.edges = none ∧
      ComboMesh3.removeEdge fixtureMwb5 (0, 8) = (fixtureMwb5, none) ∧
      MwbComboMesh3.removeEdge fixtureMwb5 (0, 8) = (fixtureMwb5, none)) ∧
    (alookup ((0, 1, 8) : Tri) fixtureMwb5.tris = none ∧
      ComboMesh3.removeTri fixtureMwb5 (0, 1, 8) = (fixtureMwb5, none) ∧
      MwbComboMesh3.removeTri fixtureMwb5 (0, 1, 8) = (fixtureMwb5, none)) ∧
    (alookup ((1, 2, 3, 4) : Tet) fixtureMwb5.tets = none ∧
      removeTet fixtureMwb5 (1, 2, 3, 4) = (fixtureMwb5, none)) :=
  ⟨⟨by decide, remove_missing_noop.1 fixtureMwb5 9 (by decide),
      remove_missing_noop.2.1 fixtureMwb5 9 (by decide)⟩,
   ⟨by decide, remove_missing_noop.2.2.1 fixtureMwb5 (0, 8) (by decide),
      remove_missing_noop.2.2.2.1 fixtureMwb5 (0, 8) (by decide)⟩,
   ⟨by decide, remove_missing_noop.2.2.2.2.1 fixtureMwb5 (0, 1, 8) (by decide),
      remove_missing_noop.2.2.2.2.2.1 fixtureMwb5 (0, 1, 8) (by decide)⟩,
   ⟨by decide, remove_missing_noop.2.2.2.2.2.2 fixtureMwb5 (1, 2, 3, 4) (by decide)⟩⟩

/-! ## Cascade and frame lemmas for the plain variant -/

theorem triTets_congr {V E F T : Type} (m1 m2 : Mesh V E F T) (h : m1.tets = m2.tets) (f : Tri) :
    triTets m1 f = triTets m2 f := by
  rw [triTets, triTets, tetKeys, tetKeys, h]

theorem edgeTris_congr {V E F T : Type} (m1 m2 : Mesh V E F T) (h : m1.tris = m2.tris) (e : Edge) :
    edgeTris m1 e = edgeTris m2 e := by
  rw [edgeTris, edgeTris, triKeys, triKeys, h]

theorem mem_edgeKeys_edgeDropIfUnused {V E F T : Type} (m : Mesh V E F T) (d0 d : Edge)
    (h : d ≠ d0) : d ∈ edgeKeys (edgeDropIfUnused m d0) ↔ d ∈ edgeKeys m := by
  unfold edgeDropIfUnused
  split
  · rw [edgeKeys, edgeKeys]
    show d ∈ (aeraseAll d0 m.edges).map Prod.fst ↔ _
    rw [mem_map_fst_aeraseAll]
    exact ⟨fun hh => hh.1, fun hh => ⟨hh, h⟩⟩
  · exact Iff.rfl

theorem mem_edgeKeys_foldl_edgeDropIfUnused {V E F T : Type} :
    ∀ (ds : List Edge) (m : Mesh V E F T) (d : Edge), d ∉ ds →
      (d ∈ edgeKeys (ds.foldl edgeDropIfUnused m) ↔ d ∈ edgeKeys m) := by
  intro ds
  induction ds with
  | nil => intro m d _; exact Iff.rfl
  | cons d0 ds ih =>
    intro m d hd
    rw [List.mem_cons] at hd
    push_neg at hd
    rw [List.foldl_cons, ih _ _ hd.2, mem_edgeKeys_edgeDropIfUnused _ _ _ hd.1]

theorem triDrop_edges_frame {V E F T : Type} (m : Mesh V E F T) (f : Tri) (d : Edge)
    (h : d ∉ triEdges f) : d ∈ edgeKeys (triDrop m f) ↔ d ∈ edgeKeys m := by
  unfold triDrop
  split
  · rw [mem_edgeKeys_foldl_edgeDropIfUnused _ _ _ h]
    exact Iff.rfl
  · exact Iff.rfl

theorem mem_triKeys_triDrop {V E F T : Type} (m : Mesh V E F T) (f g : Tri) :
    g ∈ triKeys (triDrop m f) ↔ g ∈ triKeys m ∧ g ≠ f := by
  unfold triDrop
  split
  · next hp =>
    rw [triKeys]
    show g ∈ ((triEdges f).foldl edgeDropIfUnused _).tris.map Prod.fst ↔ _
    rw [foldl_edgeDropIfUnused_tris]
    show g ∈ (aeraseAll f m.tris).map Prod.fst ↔ _
    rw [mem_map_fst_aeraseAll]
    exact Iff.rfl
  · next hp =>
    constructor
    · intro hg
      refine ⟨hg, fun he => ?_⟩
      subst he
      exact absurd ((alookup_isSome_iff _ _).mpr hg) hp
    · exact fun hh => hh.1

theorem mem_triKeys_foldl_triDropIfUnused {V E F T : Type} :
    ∀ (fs : List Tri) (m : Mesh V E F T) (g : Tri),
      g ∈ triKeys (fs.foldl triDropIfUnused m) ↔
        (g ∈ triKeys m ∧ ∀ f ∈ fs, (triTets m f).isEmpty = true → g ≠ f) := by
  intro fs
  induction fs with
  | nil => intro m g; simp
  | cons f fs ih =>
    intro m g
    rw [List.foldl_cons, ih]
    have ht1 : ∀ f1, triTets (triDropIfUnused m f) f1 = triTets m f1 :=
      fun f1 => triTets_congr _ _ (triDropIfUnused_tets m f) f1
    simp only [ht1, List.mem_cons]
    unfold triDropIfUnused
    by_cases hc : (triTets m f).isEmpty = true
    · rw [if_pos hc, mem_triKeys_triDrop]
      constructor
      · rintro ⟨⟨hg, hne⟩, hrest⟩
        refine ⟨hg, ?_⟩
        rintro f1 (rfl | hf1)
        · intro _
          exact hne
        · exact hrest f1 hf1
      · rintro ⟨hg, hall⟩
        exact ⟨⟨hg, hall f (Or.inl rfl) hc⟩, fun f1 hf1 => hall f1 (Or.inr hf1)⟩
    · rw [if_neg hc]
      constructor
      · rintro ⟨hg, hrest⟩
        refine ⟨hg, ?_⟩
        rintro f1 (rfl | hf1)
        · intro hcc
          exact absurd hcc hc
        · exact hrest f1 hf1
      · rintro ⟨hg, hall⟩
        exact ⟨hg, fun f1 hf1 => hall f1 (Or.inr hf1)⟩

theorem removeTetKeepTris_tets {V E F T : Type} (m : Mesh V E F T) (q : Tet) :
    (removeTetKeepTris m q).tets = aeraseAll q m.tets := rfl

theorem removeTetKeepTris_tris {V E F T : Type} (m : Mesh V E F T) (q : Tet) :
    (removeTetKeepTris m q).tris = m.tris := rfl

theorem removeTetKeepTris_edges {V E F T : Type} (m : Mesh V E F T) (q : Tet) :
    (removeTetKeepTris m q).edges = m.edges := rfl

theorem removeTetKeepTris_verts {V E F T : Type} (m : Mesh V E F T) (q : Tet) :
    (removeTetKeepTris m q).verts = m.verts := rfl

theorem foldl_removeTetKeepTris_tets {V E F T : Type} (qs : List Tet) (m : Mesh V E F T) :
    (qs.foldl removeTetKeepTris m).tets = m.tets.filter (fun e => decide (e.1 ∉ qs)) := by
  have h : ∀ (qs : List Tet) (m : Mesh V E F T),
      (qs.foldl removeTetKeepTris m).tets = qs.foldl (fun l t => aeraseAll t l) m.tets := by
    intro qs
    induction qs with
    | nil => intro m; rfl
    | cons q qs ih =>
      intro m
      rw [List.foldl_cons, List.foldl_cons, ih, removeTetKeepTris_tets]
  rw [h, foldl_aeraseAll]
  apply List.filter_congr
  intro e he
  rw [decide_eq_decide]

theorem foldl_removeTetKeepTris_tris {V E F T : Type} (qs : List Tet) (m : Mesh V E F T) :
    (qs.foldl removeTetKeepTris m).tris = m.tris := by
  induction qs generalizing m with
  | nil => rfl
  | cons q qs ih => rw [List.foldl_cons, ih, removeTetKeepTris_tris]

theorem foldl_removeTetKeepTris_edges {V E F T : Type} (qs : List Tet) (m : Mesh V E F T) :
    (qs.foldl removeTetKeepTris m).edges = m.edges := by
  induction qs generalizing m with
  | nil => rfl
  | cons q qs ih => rw [List.foldl_cons, ih, removeTetKeepTris_edges]

theorem foldl_removeTetKeepTris_verts {V E F T : Type} (qs : List Tet) (m : Mesh V E F T) :
    (qs.foldl removeTetKeepTris m).verts = m.verts := by
  induction qs generalizing m with
  | nil => rfl
  | cons q qs ih => rw [List.foldl_cons, ih, removeTetKeepTris_verts]

theorem foldl_triDropIfUnused_edges_frame {V E F T : Type} :
    ∀ (fs : List Tri) (m : Mesh V E F T) (d : Edge), (∀ g ∈ fs, d ∉ triEdges g) →
      (d ∈ edgeKeys (fs.foldl triDropIfUnused m) ↔ d ∈ edgeKeys m) := by
  intro fs
  induction fs with
  | nil => intro m d _; exact Iff.rfl
  | cons f fs ih =>
    intro m d hd
    rw [List.foldl_cons, ih _ _ (fun g hg => hd g (List.mem_cons_of_mem _ hg))]
    unfold triDropIfUnused
    split
    · exact triDrop_edges_frame _ _ _ (hd f (List.mem_cons_self _ _))
    · exact Iff.rfl

theorem removeTri_parts {V E F T : Type} (m : Mesh V E F T) (f : Tri) (v : F)
    (hfv : alookup f m.tris = some v) :
    (ComboMesh3.removeTri m f).1.tets = m.tets.filter (fun e => decide (f ∉ tetTris e.1)) ∧
    (ComboMesh3.removeTri m f).1.tris = aeraseAll f m.tris ∧
    (ComboMesh3.removeTri m f).1.verts = m.verts := by
  simp only [ComboMesh3.removeTri]
  rw [hfv]
  refine ⟨?_, ?_, ?_⟩
  · show ((triEdges f).foldl edgeDropIfUnused _).tets = _
    rw [foldl_edgeDropIfUnused_tets]
    show ((triTets m f).foldl removeTetKeepTris m).tets = _
    rw [foldl_removeTetKeepTris_tets]
    apply List.filter_congr
    intro e he
    rw [decide_eq_decide]
    rw [triTets, List.mem_filter]
    constructor
    · intro hn hc
      exact hn ⟨List.mem_map_of_mem _ he, by simpa using hc⟩
    · intro hn hc
      exact hn (by simpa using hc.2)
  · show ((triEdges f).foldl edgeDropIfUnused _).tris = _
    rw [foldl_edgeDropIfUnused_tris]
    show aeraseAll f ((triTets m f).foldl removeTetKeepTris m).tris = _
    rw [foldl_removeTetKeepTris_tris]
  · show ((triEdges f).foldl edgeDropIfUnused _).verts = _
    rw [foldl_edgeDropIfUnused_verts]
    show ((triTets m f).foldl removeTetKeepTris m).verts = _
    rw [foldl_removeTetKeepTris_verts]

theorem removeTri_edges_frame {V E F T : Type} (m : Mesh V E F T) (f : Tri) (v : F)
    (hfv : alookup f m.tris = some v) (d : Edge) (hd : d ∉ triEdges f)
    (hdm : d ∈ edgeKeys m) : d ∈ edgeKeys (ComboMesh3.removeTri m f).1 := by
  simp only [ComboMesh3.removeTri]
  rw [hfv]
  show d ∈ edgeKeys ((triEdges f).foldl edgeDropIfUnused _)
  rw [mem_edgeKeys_foldl_edgeDropIfUnused _ _ _ hd]
  show d ∈ (((triTets m f).foldl removeTetKeepTris m).edges).map Prod.fst
  rw [foldl_removeTetKeepTris_edges]
  exact hdm

theorem removeTet_tris_frame {V E F T : Type} (m : Mesh V E F T) (q : Tet) (g : Tri)
    (hg : g ∈ triKeys m) (hgq : g ∉ tetTris q) : g ∈ triKeys (removeTet m q).1 := by
  unfold removeTet
  cases h : alookup q m.tets with
  | none => exact hg
  | some v =>
    show g ∈ triKeys ((tetTris q).foldl triDropIfUnused _)
    rw [mem_triKeys_foldl_triDropIfUnused]
    exact ⟨hg, fun f hf _ he => hgq (he ▸ hf)⟩

theorem tetKeys_foldl_triDropIfUnused {V E F T : Type} (fs : List Tri) (m : Mesh V E F T) :
    tetKeys (fs.foldl triDropIfUnused m) = tetKeys m := by
  rw [tetKeys, foldl_triDropIfUnused_tets, tetKeys]

theorem removeTet_face_survival {V E F T : Type} (m : Mesh V E F T) (q : Tet) (v : T)
    (hqv : alookup q m.tets = some v) (g : Tri) (hgq : g ∈ tetTris q) (hg : g ∈ triKeys m) :
    (g ∈ triKeys (removeTet m q).1 ↔ ∃ k ∈ tetKeys (removeTet m q).1, g ∈ tetTris k) := by
  have hres : (removeTet m q).1 =
      (tetTris q).foldl triDropIfUnused { m with tets := aeraseAll q m.tets } := by
    unfold removeTet
    rw [hqv]
  rw [hres, mem_triKeys_foldl_triDropIfUnused, tetKeys_foldl_triDropIfUnused]
  have hm1 : ∀ f, triTets { m with tets := aeraseAll q m.tets } f =
      (tetKeys { m with tets := aeraseAll q m.tets }).filter (fun k => decide (f ∈ tetTris k)) := by
    intro f
    rfl
  constructor
  · rintro ⟨-, hall⟩
    have hne : ¬(triTets { m with tets := aeraseAll q m.tets } g).isEmpty = true := by
      intro hc
      exact hall g hgq hc rfl
    rw [hm1, List.isEmpty_iff] at hne
    by_contra hcon
    push_neg at hcon
    exact hne (List.filter_eq_nil_iff.mpr (fun k hk => by simpa using hcon k hk))
  · rintro ⟨k, hk, hkg⟩
    refine ⟨hg, ?_⟩
    intro f hf hempty he
    subst he
    rw [hm1, List.isEmpty_iff] at hempty
    have hmem : k ∈ (tetKeys { m with tets := aeraseAll q m.tets }).filter
        (fun k => decide (g ∈ tetTris k)) :=
      List.mem_filter.mpr ⟨hk, by simpa using hkg⟩
    rw [hempty] at hmem
    cases hmem

theorem removeTet_edges_frame {V E F T : Type} (m : Mesh V E F T) (q : Tet) (d : Edge)
    (hd : ∀ g ∈ tetTris q, d ∉ triEdges g) (hdm : d ∈ edgeKeys m) :
    d ∈ edgeKeys (removeTet m q).1 := by
  unfold removeTet
  cases h : alookup q m.tets with
  | none => exact hdm
  | some v =>
    show d ∈ edgeKeys ((tetTris q).foldl triDropIfUnused _)
    rw [foldl_triDropIfUnused_edges_frame _ _ _ hd]
    exact hdm

/-- C6 counterexample: on the plain simplicial-complex mesh, inserting a
tetrahedron implicitly creates its four triangles, and removing just the
tetrahedron (no `remove_tri` or `remove_edge` is ever called) deletes
those triangles: they do not persist until explicitly removed, so
removal does cascade downward. -/
theorem removal_cascade_cex :
    (ComboMesh3.addTet fixtureMesh4 (0, 1, 2, 3) 7).1.tris.length = 4 ∧
    (removeTet (ComboMesh3.addTet fixtureMesh4 (0, 1, 2, 3) 7).1 (0, 1, 2, 3)).1.tris = [] := by
  decide

/-- C6 (amended): removing a k-simplex removes every (k+1)-simplex
incident to it, and a removal never touches vertices or simplices
outside the removed simplex's own boundary; but the removed simplex's
own boundary sub-simplices are dropped when no simplex uses them any
more: a removed tetrahedron keeps each face exactly while another
tetrahedron still contains it, and a removed triangle keeps only
directed edges still in use. -/
theorem removal_cascade_frame {V E F T : Type} (m : Mesh V E F T) (f : Tri) (q : Tet)
    (fv : F) (qv : T) (hf : alookup f m.tris = some fv) (hq : alookup q m.tets = some qv) :
    ((ComboMesh3.removeTri m f).1.tets = m.tets.filter (fun e => decide (f ∉ tetTris e.1))) ∧
    ((ComboMesh3.removeTri m f).1.tris = aeraseAll f m.tris) ∧
    ((ComboMesh3.removeTri m f).1.verts = m.verts) ∧
    (∀ d ∈ edgeKeys m, d ∉ triEdges f → d ∈ edgeKeys (ComboMesh3.removeTri m f).1) ∧
    ((removeTet m q).1.tets = aeraseAll q m.tets) ∧
    (∀ g ∈ triKeys m, g ∉ tetTris q → g ∈ triKeys (removeTet m q).1) ∧
    (∀ g ∈ tetTris q, g ∈ triKeys m →
      (g ∈ triKeys (removeTet m q).1 ↔ ∃ k ∈ tetKeys (removeTet m q).1, g ∈ tetTris k)) ∧
    (∀ d ∈ edgeKeys m, (∀ g ∈ tetTris q, d ∉ triEdges g) → d ∈ edgeKeys (removeTet m q).1) ∧
    ((removeTet m q).1.verts = m.verts) := by
  obtain ⟨h1, h2, h3⟩ := removeTri_parts m f fv hf
  refine ⟨h1, h2, h3, ?_, removeTet_tets m q, ?_, ?_, ?_, removeTet_verts m q⟩
  · intro d hdm hd
    exact removeTri_edges_frame m f fv hf d hd hdm
  · intro g hg hgq
    exact removeTet_tris_frame m q g hg hgq
  · intro g hgq hg
    exact removeTet_face_survival m q qv hq g hgq hg
  · intro d hdm hd
    exact removeTet_edges_frame m q d hd hdm

/-- C6 witness: the five-tetrahedron scenario of the `src/mesh3.rs` tests
on the plain variant, with the triangle `(0,2,1)` and the tetrahedron
`(0,1,3,2)`. -/
theorem removal_cascade_frame_witness :
    (alookup ((0, 2, 1) : Tri) fixturePlain5.tris = some 0 ∧
      alookup ((0, 1, 3, 2) : Tet) fixturePlain5.tets = some 2) ∧
    (((ComboMesh3.removeTri fixturePlain5 (0, 2, 1)).1.tets =
        fixturePlain5.tets.filter (fun e => decide ((0, 2, 1) ∉ tetTris e.1))) ∧
     ((ComboMesh3.removeTri fixturePlain5 (0, 2, 1)).1.tris =
        aeraseAll (0, 2, 1) fixturePlain5.tris) ∧
     ((ComboMesh3.removeTri fixturePlain5 (0, 2, 1)).1.verts = fixturePlain5.verts) ∧
     (∀ d ∈ edgeKeys fixturePlain5, d ∉ triEdges (0, 2, 1) →
        d ∈ edgeKeys (ComboMesh3.removeTri fixturePlain5 (0, 2, 1)).1) ∧
     ((removeTet fixturePlain5 (0, 1, 3, 2)).1.tets =
        aeraseAll (0, 1, 3, 2) fixturePlain5.tets) ∧
     (∀ g ∈ triKeys fixturePlain5, g ∉ tetTris (0, 1, 3, 2) →
        g ∈ triKeys (removeTet fixturePlain5 (0, 1, 3, 2)).1) ∧
     (∀ g ∈ tetTris (0, 1, 3, 2), g ∈ triKeys fixturePlain5 →
        (g ∈ triKeys (removeTet fixturePlain5 (0, 1, 3, 2)).1 ↔
          ∃ k ∈ tetKeys (removeTet fixturePlain5 (0, 1, 3, 2)).1, g ∈ tetTris k)) ∧
     (∀ d ∈ edgeKeys fixturePlain5, (∀ g ∈ tetTris (0, 1, 3, 2), d ∉ triEdges g) →
        d ∈ edgeKeys (removeTet fixturePlain5 (0, 1, 3, 2)).1) ∧
     ((removeTet fixturePlain5 (0, 1, 3, 2)).1.verts = fixturePlain5.verts)) :=
  ⟨⟨by decide, by decide⟩,
    removal_cascade_frame fixturePlain5 (0, 2, 1) (0, 1, 3, 2) 0 2 (by decide) (by decide)⟩

/-! ## Properties of the canonical rotations -/

theorem triCanon_idem (t : Tri) : triCanon (triCanon t) = triCanon t := by
  obtain ⟨a, b, c⟩ := t
  simp only [triCanon]
  split_ifs <;> first | rfl | (exfalso; (try dsimp only at *); omega)

/-- Cyclic rotation invariance of the canonical triangle rotation, for
distinct vertices. -/
theorem triCanon_rot {x y z : Nat} (hxy : x ≠ y) (hyz : y ≠ z) (hxz : x ≠ z) :
    triCanon (x, y, z) = triCanon (y, z, x) := by
  simp only [triCanon]
  split_ifs <;> first | rfl | (exfalso; omega)

theorem mem_triVerts_triCanon (x : VertexId) (t : Tri) :
    x ∈ triVerts (triCanon t) ↔ x ∈ triVerts t := by
  obtain ⟨a, b, c⟩ := t
  simp only [triCanon]
  split_ifs <;> simp [triVerts] <;> tauto

theorem nodup_triVerts_triCanon (t : Tri) (h : (triVerts t).Nodup) :
    (triVerts (triCanon t)).Nodup := by
  obtain ⟨a, b, c⟩ := t
  simp only [triVerts] at h
  simp only [triCanon]
  split_ifs <;> simp_all [triVerts] <;> tauto

theorem triCanon_of_mem_tetTris (g : Tri) (t : Tet) (h : g ∈ tetTris t) :
    triCanon g = g := by
  obtain ⟨a, b, c, d⟩ := t
  simp only [tetTris, List.mem_cons, List.not_mem_nil, or_false] at h
  rcases h with h | h | h | h <;> rw [h, triCanon_idem]

theorem triVerts_subset_of_mem_tetTris (g : Tri) (t : Tet) (h : g ∈ tetTris t)
    (x : VertexId) (hx : x ∈ triVerts g) : x ∈ tetVerts t := by
  obtain ⟨a, b, c, d⟩ := t
  simp only [tetTris, List.mem_cons, List.not_mem_nil, or_false] at h
  rcases h with h | h | h | h <;>
    (rw [h] at hx; rw [mem_triVerts_triCanon] at hx;
     simp only [triVerts, List.mem_cons, List.not_mem_nil, or_false] at hx;
     simp only [tetVerts, List.mem_cons, List.not_mem_nil, or_false];
     tauto)

theorem nodup_triVerts_of_mem_tetTris (g : Tri) (t : Tet) (h : g ∈ tetTris t)
    (hnd : (tetVerts t).Nodup) : (triVerts g).Nodup := by
  obtain ⟨a, b, c, d⟩ := t
  simp only [tetVerts] at hnd
  simp only [List.nodup_cons, List.mem_cons, List.mem_singleton, List.not_mem_nil,
    List.nodup_nil] at hnd
  simp only [tetTris, List.mem_cons, List.not_mem_nil, or_false] at h
  rcases h with h | h | h | h <;>
    (rw [h]; apply nodup_triVerts_triCanon; simp [triVerts]; tauto)

theorem sharesFace_iff (t1 t2 : Tet) :
    sharesFace t1 t2 = true ↔ ∃ f, f ∈ tetTris t1 ∧ f ∈ tetTris t2 := by
  unfold sharesFace
  rw [List.any_eq_true]
  constructor
  · rintro ⟨f, h1, h2⟩
    exact ⟨f, h1, by simpa using h2⟩
  · rintro ⟨f, h1, h2⟩
    exact ⟨f, h1, by simpa using h2⟩

theorem tetCanon_mem_or (t : Tet) : tetCanon t ∈ tetRots t ∨ tetCanon t = t := by
  have hpick : ∀ (xs : List Tet) (x : Tet),
      (xs.foldl (fun acc p => if p.2.1 < acc.2.1 then p else acc) x) ∈ x :: xs := by
    intro xs
    induction xs with
    | nil => intro x; exact List.mem_singleton.mpr rfl
    | cons p xs ih =>
      intro x
      rw [List.foldl_cons]
      by_cases hpx : p.2.1 < x.2.1
      · rw [if_pos hpx]
        rcases List.mem_cons.mp (ih p) with h | h
        · rw [h]
          exact List.mem_cons_of_mem _ (List.mem_cons_self _ _)
        · exact List.mem_cons_of_mem _ (List.mem_cons_of_mem _ h)
      · rw [if_neg hpx]
        rcases List.mem_cons.mp (ih x) with h | h
        · rw [h]
          exact List.mem_cons_self _ _
        · exact List.mem_cons_of_mem _ (List.mem_cons_of_mem _ h)
  unfold tetCanon
  split
  · next heq => exact Or.inr rfl
  · next x xs heq =>
    left
    have hmem := hpick xs x
    have hsub : x :: xs ⊆ (tetRots t).filter (fun p => decide (p.1 = tetMinV t)) := by
      rw [heq]
      exact fun y hy => hy
    exact List.mem_of_mem_filter (hsub hmem)

/-! ## Bulk insertion of fresh, face-disjoint tetrahedra -/

theorem sharesFace_self (t : Tet) : sharesFace t t = true := by
  obtain ⟨a, b, c, d⟩ := t
  simp [sharesFace, tetTris]

theorem MwbAddTet_defaultT {V E F T : Type} (m : Mesh V E F T) (q0 : Tet) (v : T) :
    (MwbComboMesh3.addTet m q0 v).1.defaultT = m.defaultT := by
  simp only [MwbComboMesh3.addTet]
  cases h : alookup (tetCanon q0) m.tets
  · simp only [foldl_ensureTri_defaultT, foldl_removeTet_defaultT]
  · rfl

/-- Bulk insertion of tetrahedra none of which shares an oriented face
with an existing tetrahedron or with a later inserted one: every
insertion is a plain cons, nothing is killed. -/
theorem extendTets_fresh {V E F T : Type} (l : List (Tet × T)) (m : Mesh V E F T)
    (hfresh : ∀ e ∈ l, ∀ k ∈ tetKeys m, sharesFace (tetCanon e.1) k = false)
    (hpair : l.Pairwise
      (fun e f => sharesFace (tetCanon f.1) (tetCanon e.1) = false)) :
    (MwbComboMesh3.extendTets m l).tets =
      (l.map (fun e => (tetCanon e.1, e.2))).reverse ++ m.tets ∧
    (MwbComboMesh3.extendTets m l).defaultT = m.defaultT := by
  induction l generalizing m with
  | nil => exact ⟨rfl, rfl⟩
  | cons e l ih =>
    simp only [MwbComboMesh3.extendTets, List.foldl_cons] at ih ⊢
    have hqv : alookup (tetCanon e.1) m.tets = none := by
      rw [alookup_eq_none_iff]
      intro hc
      have := hfresh e (List.mem_cons_self _ _) _ hc
      rw [sharesFace_self] at this
      exact absurd this (by simp)
    have hnew := MwbAddTet_new m e.1 e.2 hqv
    have hfilter : m.tets.filter (fun x => !(sharesFace (tetCanon e.1) x.1)) = m.tets := by
      apply List.filter_eq_self.mpr
      intro x hx
      have := hfresh e (List.mem_cons_self _ _) x.1 (List.mem_map_of_mem _ hx)
      rw [this]
      rfl
    have htets : (MwbComboMesh3.addTet m e.1 e.2).1.tets = (tetCanon e.1, e.2) :: m.tets := by
      rw [hnew.1, hfilter]
    have hkeys : tetKeys (MwbComboMesh3.addTet m e.1 e.2).1 = tetCanon e.1 :: tetKeys m := by
      rw [tetKeys, htets, List.map_cons]
      rfl
    have hstep := ih (MwbComboMesh3.addTet m e.1 e.2).1
      (by
        intro f hf k hk
        rw [hkeys] at hk
        rcases List.mem_cons.mp hk with rfl | hk
        · exact (List.pairwise_cons.mp hpair).1 f hf
        · exact hfresh f (List.mem_cons_of_mem _ hf) k hk)
      (List.pairwise_cons.mp hpair).2
    refine ⟨?_, ?_⟩
    · rw [hstep.1, htets]
      simp [List.append_assoc]
    · rw [hstep.2, MwbAddTet_defaultT]

theorem alookup_append_const {K V : Type} [DecidableEq K] (k : K) (v : V)
    (l1 l2 : List (K × V)) (hmem : k ∈ l1.map Prod.fst) (hval : ∀ e ∈ l1, e.2 = v) :
    alookup k (l1 ++ l2) = some v := by
  induction l1 with
  | nil => simp at hmem
  | cons e l1 ih =>
    rw [List.cons_append]
    simp only [alookup]
    by_cases he : e.1 = k
    · rw [if_pos he, hval e (List.mem_cons_self _ _)]
    · rw [if_neg he]
      apply ih
      · rcases List.mem_map.mp hmem with ⟨x, hx, hxk⟩
        rcases List.mem_cons.mp hx with rfl | hx
        · exact absurd hxk he
        · rw [← hxk]
          exact List.mem_map_of_mem _ hx
      · exact fun x hx => hval x (List.mem_cons_of_mem _ hx)

/-- The boundary of the cavity, characterized: a face of a cavity
tetrahedron whose twin is a face of no cavity tetrahedron. -/
theorem mem_boundaryTris {E F T : Type} (m : PosMesh E F T) (p ghost : VertexId) (f : Tri) :
    f ∈ boundaryTris m p ghost ↔
      ((∃ t ∈ tetsToDelete m p ghost, f ∈ tetTris t) ∧
       ∀ t ∈ tetsToDelete m p ghost, triTwin f ∉ tetTris t) := by
  simp only [boundaryTris, cavityTris, List.mem_filter, List.mem_dedup, List.mem_flatten,
    List.mem_map, decide_eq_true_eq]
  constructor
  · rintro ⟨⟨gl, ⟨t, ht, rfl⟩, hf⟩, htwin⟩
    refine ⟨⟨t, ht, hf⟩, ?_⟩
    intro t' ht' hc
    exact htwin ⟨tetTris t', ⟨t', ht', rfl⟩, hc⟩
  · rintro ⟨⟨t, ht, hf⟩, htwin⟩
    refine ⟨⟨tetTris t, ⟨t, ht, rfl⟩, hf⟩, ?_⟩
    rintro ⟨gl, ⟨t', ht', rfl⟩, hc⟩
    exact htwin t' ht' hc

theorem nodup_boundaryTris {E F T : Type} (m : PosMesh E F T) (p ghost : VertexId) :
    (boundaryTris m p ghost).Nodup :=
  (List.nodup_dedup _).filter _

theorem mem_tetVerts_of_mem_tetRots (r t : Tet) (hr : r ∈ tetRots t) (x : Nat) :
    x ∈ tetVerts r ↔ x ∈ tetVerts t := by
  obtain ⟨a, b, c, d⟩ := t
  simp only [tetRots, List.mem_cons, List.not_mem_nil, or_false] at hr
  rcases hr with rfl | rfl | rfl | rfl | rfl | rfl | rfl | rfl | rfl | rfl | rfl | rfl <;>
    simp only [tetVerts, List.mem_cons, List.not_mem_nil, or_false] <;>
    tauto

theorem mem_tetVerts_tetCanon (x : Nat) (t : Tet) :
    x ∈ tetVerts (tetCanon t) ↔ x ∈ tetVerts t := by
  rcases tetCanon_mem_or t with h | h
  · exact mem_tetVerts_of_mem_tetRots _ t h x
  · rw [h]

theorem countP_eq_one_of_nodup {α : Type} {l : List α} (hnd : l.Nodup) {a : α}
    (ha : a ∈ l) (p : α → Bool) (hp : ∀ b ∈ l, p b = true ↔ b = a) :
    l.countP p = 1 := by
  induction l with
  | nil => cases ha
  | cons x l ih =>
    rw [List.countP_cons]
    rcases List.mem_cons.mp ha with rfl | ha2
    · rw [(hp a (List.mem_cons_self _ _)).mpr rfl]
      have hzero : l.countP p = 0 := by
        rw [List.countP_eq_zero]
        intro b hb hpb
        have hba : b = a := (hp b (List.mem_cons_of_mem _ hb)).mp hpb
        exact absurd (hba ▸ hb) (List.nodup_cons.mp hnd).1
      rw [hzero]
      rfl
    · have hxa : x ≠ a := by
        intro hc
        exact absurd (hc ▸ ha2) (List.nodup_cons.mp hnd).1
      have hx : p x = false := by
        rcases hb : p x with _ | _
        · rfl
        · exact absurd ((hp x (List.mem_cons_self _ _)).mp hb) hxa
      rw [hx]
      have := ih (List.nodup_cons.mp hnd).2 ha2
        (fun b hb => hp b (List.mem_cons_of_mem _ hb))
      simp only [if_neg (by simp : ¬(false = true)), Nat.add_zero]
      exact this

/-- C3: one Bowyer-Watson insertion step.  Under the invariant-style
hypotheses that the cavity tetrahedra are present, and that the new fan
tetrahedra neither share an oriented face with an existing tetrahedron
nor with each other, the step removes exactly the cavity, the
retriangulation boundary is exactly the set of cavity faces whose twin
is not a cavity face, and each boundary face spawns exactly one new
tetrahedron with the default payload. -/
theorem delaunay_insert_step {E F T : Type} (m : PosMesh E F T) (p ghost : VertexId)
    (hpnew : ∀ t ∈ tetsToDelete m p ghost, p ∉ tetVerts t)
    (hfresh : ∀ f ∈ boundaryTris m p ghost, ∀ k ∈ tetKeys m,
      k ∉ tetsToDelete m p ghost →
      sharesFace (tetCanon (f.1, f.2.1, f.2.2, p)) k = false)
    (hpair : (boundaryTris m p ghost).Pairwise (fun f g =>
      sharesFace (tetCanon (g.1, g.2.1, g.2.2, p))
        (tetCanon (f.1, f.2.1, f.2.2, p)) = false)) :
    (∀ f, f ∈ boundaryTris m p ghost ↔
      ((∃ t ∈ tetsToDelete m p ghost, f ∈ tetTris t) ∧
       ∀ t ∈ tetsToDelete m p ghost, triTwin f ∉ tetTris t)) ∧
    (∀ t ∈ tetsToDelete m p ghost, t ∉ tetKeys (insertStep m p ghost)) ∧
    (∀ f ∈ boundaryTris m p ghost,
      alookup (tetCanon (f.1, f.2.1, f.2.2, p)) (insertStep m p ghost).tets =
        some m.defaultT ∧
      (insertStep m p ghost).tets.countP
        (fun e => decide (e.1 = tetCanon (f.1, f.2.1, f.2.2, p))) = 1) := by
  have hm1 := foldl_removeTet_tets (tetsToDelete m p ghost) m
  have hm1d := foldl_removeTet_defaultT (tetsToDelete m p ghost) m
  have hstep : insertStep m p ghost =
      MwbComboMesh3.extendTets
        ((tetsToDelete m p ghost).foldl (fun acc t => (removeTet acc t).1) m)
        ((boundaryTris m p ghost).map (fun f => ((f.1, f.2.1, f.2.2, p),
          ((tetsToDelete m p ghost).foldl (fun acc t =>
            (removeTet acc t).1) m).defaultT))) := rfl
  have hkeys1 : ∀ k ∈ tetKeys ((tetsToDelete m p ghost).foldl
      (fun acc t => (removeTet acc t).1) m),
      k ∈ tetKeys m ∧ k ∉ tetsToDelete m p ghost := by
    intro k hk
    rw [tetKeys, hm1] at hk
    rcases List.mem_map.mp hk with ⟨x, hx, rfl⟩
    have hx2 := List.mem_filter.mp hx
    exact ⟨List.mem_map_of_mem _ hx2.1, of_decide_eq_true hx2.2⟩
  have hfresh2 : ∀ e ∈ (boundaryTris m p ghost).map (fun f => ((f.1, f.2.1, f.2.2, p),
      ((tetsToDelete m p ghost).foldl (fun acc t => (removeTet acc t).1) m).defaultT)),
      ∀ k ∈ tetKeys ((tetsToDelete m p ghost).foldl (fun acc t => (removeTet acc t).1) m),
      sharesFace (tetCanon e.1) k = false := by
    intro e he k hk
    rcases List.mem_map.mp he with ⟨f, hf, rfl⟩
    exact hfresh f hf k (hkeys1 k hk).1 (hkeys1 k hk).2
  have hpair2 : ((boundaryTris m p ghost).map (fun f : Tri => ((f.1, f.2.1, f.2.2, p),
      ((tetsToDelete m p ghost).foldl (fun acc t =>
        (removeTet acc t).1) m).defaultT))).Pairwise
      (fun e f => sharesFace (tetCanon f.1) (tetCanon e.1) = false) :=
    hpair.map _ (fun a b h => h)
  have hres := extendTets_fresh _ _ hfresh2 hpair2
  have hforall : ∀ f ∈ boundaryTris m p ghost, ∀ g ∈ boundaryTris m p ghost, f ≠ g →
      sharesFace (tetCanon (g.1, g.2.1, g.2.2, p))
        (tetCanon (f.1, f.2.1, f.2.2, p)) = false := by
    have hsym : Symmetric (fun f g : Tri =>
        sharesFace (tetCanon (g.1, g.2.1, g.2.2, p))
          (tetCanon (f.1, f.2.1, f.2.2, p)) = false) := by
      intro a b h
      rw [sharesFace_symm]
      exact h
    exact fun f hf g hg hne => hpair.forall hsym hf hg hne
  have hkeyne : ∀ f ∈ boundaryTris m p ghost, ∀ g ∈ boundaryTris m p ghost, f ≠ g →
      tetCanon (g.1, g.2.1, g.2.2, p) ≠ tetCanon (f.1, f.2.1, f.2.2, p) := by
    intro f hf g hg hne hc
    have := hforall f hf g hg hne
    rw [hc, sharesFace_self] at this
    exact absurd this (by simp)
  refine ⟨mem_boundaryTris m p ghost, ?_, ?_⟩
  · intro t ht hkt
    rw [hstep, tetKeys, hres.1, List.map_append, List.mem_append] at hkt
    rcases hkt with hkt | hkt
    · simp only [List.map_reverse, List.mem_reverse, List.map_map, List.mem_map] at hkt
      rcases hkt with ⟨f, hf, hfk⟩
      have hc : tetCanon (f.1, f.2.1, f.2.2, p) = t := hfk
      have hp4 : p ∈ tetVerts (tetCanon (f.1, f.2.1, f.2.2, p)) := by
        rw [mem_tetVerts_tetCanon]
        simp [tetVerts]
      rw [hc] at hp4
      exact hpnew t ht hp4
    · rw [hm1] at hkt
      rcases (mem_map_fst_filter _ _ _).mp hkt with ⟨x, _, hx⟩
      rw [decide_eq_true_eq] at hx
      exact hx ht
  · intro f hf
    constructor
    · rw [hstep, hres.1]
      have := alookup_append_const (tetCanon (f.1, f.2.1, f.2.2, p))
        (((tetsToDelete m p ghost).foldl (fun acc t => (removeTet acc t).1) m).defaultT)
        ((((boundaryTris m p ghost).map (fun f => ((f.1, f.2.1, f.2.2, p),
          ((tetsToDelete m p ghost).foldl (fun acc t => (removeTet acc t).1) m).defaultT))).map
            (fun e => (tetCanon e.1, e.2))).reverse)
        (((tetsToDelete m p ghost).foldl (fun acc t => (removeTet acc t).1) m).tets)
        (by
          simp only [List.map_reverse, List.mem_reverse, List.map_map, List.mem_map]
          exact ⟨f, hf, rfl⟩)
        (by
          intro e he
          simp only [List.mem_reverse, List.map_map, List.mem_map] at he
          rcases he with ⟨g, _, rfl⟩
          rfl)
      rw [this, hm1d]
    · rw [hstep, hres.1, List.countP_append, List.countP_reverse, List.map_map,
        List.countP_map]
      have hz : (((tetsToDelete m p ghost).foldl (fun acc t =>
          (removeTet acc t).1) m).tets).countP
          (fun e => decide (e.1 = tetCanon (f.1, f.2.1, f.2.2, p))) = 0 := by
        rw [List.countP_eq_zero]
        intro e he
        rw [hm1] at he
        have he2 := List.mem_filter.mp he
        have hmem : e.1 ∈ tetKeys m := List.mem_map_of_mem _ he2.1
        intro hc
        rw [decide_eq_true_eq] at hc
        have hs := hfresh f hf e.1 hmem (of_decide_eq_true he2.2)
        rw [hc, sharesFace_self] at hs
        exact absurd hs (by simp)
      rw [hz, Nat.add_zero]
      apply countP_eq_one_of_nodup (nodup_boundaryTris m p ghost) hf
      intro g hg
      simp only [Function.comp_apply, decide_eq_true_eq]
      constructor
      · intro hc
        by_contra hgf
        exact hkeyne f hf g hg (fun h => hgf h.symm) hc
      · rintro rfl
        rfl

/-- C3 witness: the five-point fixture of `test_in_sphere_ghost`; the
vertex `4` sits inside the circumsphere of the single tetrahedron, the
cavity is that tetrahedron, the boundary its four faces, and the step
replaces it by the four-tetrahedron fan around `4`. -/
theorem delaunay_insert_step_witness :
    ((∀ t ∈ tetsToDelete fixtureIS 4 9, (4 : Nat) ∉ tetVerts t) ∧
     (∀ f ∈ boundaryTris fixtureIS 4 9, ∀ k ∈ tetKeys fixtureIS,
        k ∉ tetsToDelete fixtureIS 4 9 →
        sharesFace (tetCanon (f.1, f.2.1, f.2.2, 4)) k = false) ∧
     (boundaryTris fixtureIS 4 9).Pairwise (fun f g =>
        sharesFace (tetCanon (g.1, g.2.1, g.2.2, 4))
          (tetCanon (f.1, f.2.1, f.2.2, 4)) = false)) ∧
    ((∀ f, f ∈ boundaryTris fixtureIS 4 9 ↔
      ((∃ t ∈ tetsToDelete fixtureIS 4 9, f ∈ tetTris t) ∧
       ∀ t ∈ tetsToDelete fixtureIS 4 9, triTwin f ∉ tetTris t)) ∧
    (∀ t ∈ tetsToDelete fixtureIS 4 9, t ∉ tetKeys (insertStep fixtureIS 4 9)) ∧
    (∀ f ∈ boundaryTris fixtureIS 4 9,
      alookup (tetCanon (f.1, f.2.1, f.2.2, 4)) (insertStep fixtureIS 4 9).tets =
        some fixtureIS.defaultT ∧
      (insertStep fixtureIS 4 9).tets.countP
        (fun e => decide (e.1 = tetCanon (f.1, f.2.1, f.2.2, 4))) = 1)) :=
  ⟨⟨by decide, by decide, by decide⟩,
    delaunay_insert_step fixtureIS 4 9 (by decide) (by decide) (by decide)⟩

theorem tetCanon_delaunayInitFirst {E F T : Type} (m : PosMesh E F T) :
    tetCanon (delaunayInitFirst m) = delaunayFirstTet m := by
  simp only [delaunayInitFirst, delaunayFirstTet]
  split <;> rfl

theorem foldl_addTet_defaultT_congr {V E F T : Type} (fs : List Tri) (gh : Nat)
    (m : Mesh V E F T) :
    fs.foldl (fun acc f =>
        (MwbComboMesh3.addTet acc (f.1, f.2.2, f.2.1, gh) acc.defaultT).1) m =
      MwbComboMesh3.extendTets m (fs.map (fun f => ((f.1, f.2.2, f.2.1, gh), m.defaultT))) := by
  induction fs generalizing m with
  | nil => rfl
  | cons f fs ih =>
    simp only [List.foldl_cons, List.map_cons, MwbComboMesh3.extendTets] at ih ⊢
    rw [ih, MwbAddTet_defaultT]

/-- The mesh built by the initial phase is a bulk insertion of the solid
tetrahedron and its four ghost tetrahedra into the mesh with the ghost
vertex allocated. -/
theorem delaunayInit_as_extend {E F T : Type} (m : PosMesh E F T) :
    (delaunayInit m).1 =
      MwbComboMesh3.extendTets (addVertex m none).1
        ((delaunayInitFirst m, (addVertex m none).1.defaultT) ::
          (tetTris (tetCanon (delaunayInitFirst m))).map (fun f =>
            ((f.1, f.2.2, f.2.1, m.nextVertexId), (addVertex m none).1.defaultT))) := by
  simp only [delaunayInit, delaunayInitFirst, MwbComboMesh3.extendTets, List.foldl_cons]
  rw [foldl_addTet_defaultT_congr, MwbAddTet_defaultT, MwbComboMesh3.extendTets]

/-- C4 (amended): the initial phase of `delaunay_tets`.  The solid
tetrahedron is built from the four vertices popped off the END of the
collected vertex id list (the last four in iteration order, not the
first four), swapped into positive orientation; one ghost tetrahedron
`(u, w, v, ghost)` is added per face `(u, v, w)` of the solid
tetrahedron, and the resulting store holds exactly those five
tetrahedra with the default payload. -/
theorem delaunay_init_spec {E F T : Type} (m : PosMesh E F T)
    (hE : m.tets = [])
    (hpair : (delaunayFirstTet m :: (tetTris (delaunayFirstTet m)).map
        (fun f => tetCanon (f.1, f.2.2, f.2.1, m.nextVertexId))).Pairwise
      (fun a b => sharesFace b a = false)) :
    (delaunayInit m).1.tets =
      ((tetTris (delaunayFirstTet m)).map (fun f =>
        (tetCanon (f.1, f.2.2, f.2.1, m.nextVertexId), m.defaultT))).reverse ++
      [(delaunayFirstTet m, m.defaultT)] ∧
    (delaunayInit m).2.1 = ((vertexIds m).reverse).drop 4 ∧
    (delaunayInit m).2.2 = m.nextVertexId := by
  refine ⟨?_, rfl, rfl⟩
  rw [delaunayInit_as_extend]
  have h0 : (addVertex m none).1.tets = m.tets := rfl
  have hmap : ((delaunayInitFirst m, (addVertex m none).1.defaultT) ::
      (tetTris (tetCanon (delaunayInitFirst m))).map (fun f =>
        ((f.1, f.2.2, f.2.1, m.nextVertexId), (addVertex m none).1.defaultT))).map
      (fun e => tetCanon e.1) =
      delaunayFirstTet m :: (tetTris (delaunayFirstTet m)).map
        (fun f => tetCanon (f.1, f.2.2, f.2.1, m.nextVertexId)) := by
    simp only [List.map_cons, List.map_map]
    rw [tetCanon_delaunayInitFirst]
    rfl
  have hfr : ∀ e ∈ ((delaunayInitFirst m, (addVertex m none).1.defaultT) ::
      (tetTris (tetCanon (delaunayInitFirst m))).map (fun f =>
        ((f.1, f.2.2, f.2.1, m.nextVertexId), (addVertex m none).1.defaultT))),
      ∀ k ∈ tetKeys (addVertex m none).1, sharesFace (tetCanon e.1) k = false := by
    intro e _ k hk
    rw [tetKeys, h0, hE] at hk
    simp at hk
  have hp2 : ((delaunayInitFirst m, (addVertex m none).1.defaultT) ::
      (tetTris (tetCanon (delaunayInitFirst m))).map (fun f =>
        ((f.1, f.2.2, f.2.1, m.nextVertexId), (addVertex m none).1.defaultT))).Pairwise
      (fun e f => sharesFace (tetCanon f.1) (tetCanon e.1) = false) := by
    rw [← hmap] at hpair
    exact List.pairwise_map.mp hpair
  have hres := extendTets_fresh _ _ hfr hp2
  rw [hres.1, h0, hE, List.append_nil, List.map_cons, List.map_map,
    tetCanon_delaunayInitFirst, List.reverse_cons]
  rfl

/-- C4 counterexample for the popping order: on a five-vertex mesh the
first four collected vertex ids are `0, 1, 2, 3`, yet the solid
tetrahedron of the initial phase is built from `1, 2, 3, 4`; the first
input vertex does not occur in it. -/
theorem delaunay_first_tet_cex :
    (vertexIds fixtureD5).take 4 = [0, 1, 2, 3] ∧
    delaunayFirstTet fixtureD5 = (1, 2, 4, 3) ∧
    (0 : Nat) ∉ tetVerts (delaunayFirstTet fixtureD5) ∧
    delaunayFirstTet fixtureD5 = tetCanon (delaunayInitFirst fixtureD5) ∧
    tetVerts (delaunayInitFirst fixtureD5) = [4, 3, 1, 2] := by
  decide

/-- C4 amended witness: the four-point fixture of `test_delaunay_single`;
the initial phase builds the solid tetrahedron `(0, 1, 3, 2)` plus its
four ghost tetrahedra. -/
theorem delaunay_init_spec_witness :
    (fixtureD4.tets = [] ∧
     (delaunayFirstTet fixtureD4 :: (tetTris (delaunayFirstTet fixtureD4)).map
        (fun f => tetCanon (f.1, f.2.2, f.2.1, fixtureD4.nextVertexId))).Pairwise
      (fun a b => sharesFace b a = false)) ∧
    ((delaunayInit fixtureD4).1.tets =
      ((tetTris (delaunayFirstTet fixtureD4)).map (fun f =>
        (tetCanon (f.1, f.2.2, f.2.1, fixtureD4.nextVertexId), fixtureD4.defaultT))).reverse ++
      [(delaunayFirstTet fixtureD4, fixtureD4.defaultT)] ∧
    (delaunayInit fixtureD4).2.1 = ((vertexIds fixtureD4).reverse).drop 4 ∧
    (delaunayInit fixtureD4).2.2 = fixtureD4.nextVertexId) :=
  ⟨⟨by decide, by decide⟩, delaunay_init_spec fixtureD4 (by decide) (by decide)⟩

/-! ## Model validation: replays of the repository's unit tests -/

/-- `test_extend_tets_m` of `src/mesh3.rs`: the five-tetrahedron complex
has 5 tetrahedra, 20 triangles, 36 directed edges over 9 vertices. -/
theorem model_validation_extend_tets :
    (tetKeys fixtureMwb5).length = 5 ∧ (triKeys fixtureMwb5).length = 20 ∧
    (edgeKeys fixtureMwb5).length = 36 ∧ (vertexIds fixtureMwb5).length = 9 := by
  decide

/-- `test_remove_edge_m` of `src/mesh3.rs`: removing the directed edge
`(1, 2)` leaves 30 edges, 16 triangles, 4 tetrahedra. -/
theorem model_validation_remove_edge :
    (edgeKeys (MwbComboMesh3.removeEdge fixtureMwb5 (1, 2)).1).length = 30 ∧
    (triKeys (MwbComboMesh3.removeEdge fixtureMwb5 (1, 2)).1).length = 16 ∧
    (tetKeys (MwbComboMesh3.removeEdge fixtureMwb5 (1, 2)).1).length = 4 := by
  decide

/-- `test_remove_vertex_m` of `src/mesh3.rs`: removing vertex `4` leaves
12 edges, 4 triangles, 1 tetrahedron. -/
theorem model_validation_remove_vertex :
    (edgeKeys (MwbComboMesh3.removeVertex fixtureMwb5 4).1).length = 12 ∧
    (triKeys (MwbComboMesh3.removeVertex fixtureMwb5 4).1).length = 4 ∧
    (tetKeys (MwbComboMesh3.removeVertex fixtureMwb5 4).1).length = 1 := by
  decide

/-- `test_add_tet_m` of `src/mesh3.rs`: keys are stored canonically;
`(1,0,2,3)` is stored as `(0,1,3,2)` and `(1,0,3,2)` as `(0,1,2,3)`. -/
theorem model_validation_add_tet :
    tetKeys (MwbComboMesh3.addTet fixtureMesh9 (1, 0, 2, 3) 0).1 = [(0, 1, 3, 2)] ∧
    tetKeys (MwbComboMesh3.addTet
      (MwbComboMesh3.addTet fixtureMesh9 (1, 0, 2, 3) 0).1 (1, 0, 3, 2) 0).1 =
      [(0, 1, 2, 3), (0, 1, 3, 2)] := by
  decide

/-- `test_delaunay_tets_single` of `src/tetrahedralize.rs`: four unit
points produce the single solid tetrahedron `(0, 1, 3, 2)` after ghost
removal. -/
theorem model_validation_delaunay_single :
    tetKeys (delaunayTets fixtureD4) = [(0, 1, 3, 2)] := by
  decide

/-- `test_delaunay_tets_multiple` of `src/tetrahedralize.rs`: six points
produce the six expected solid tetrahedra. -/
theorem model_validation_delaunay_multiple :
    tetKeys (delaunayTets fixtureD6) =
      [(0, 1, 3, 5), (0, 2, 5, 3), (0, 1, 5, 2), (1, 3, 5, 4), (1, 2, 4, 5), (2, 3, 4, 5)] := by
  decide
